import Mathlib

/-!
# Schema2 manifest builder

A shallow embedding of
`vendor/src/github.com/docker/distribution/manifest/schema2/builder.go`
and theorems about it.

Conventions of the embedding:

* A Go slice is a `List`; `make` and the builtin `copy` are modelled as the
  functions `make` and `copy` below, `append(s, x)` is `s ++ [x]`.
* A Go `error` is an `Option Err`: `none` is the nil error.
* A method with a pointer receiver returns the receiver's state after the
  call next to its Go results.
* The blob store behind the `distribution.BlobService` interface is a state
  machine over a state type `σ`; every call `Build` makes on it is recorded,
  in order, in the `calls` of the result.
* `Build` hands the slice `mb.configJSON` itself to `Put`; the assignments
  `p[i] = x` that the store makes through it during the call are the
  `PutWrites` of the store, and the receiver after `Build` holds the bytes
  so written.
* The type of contexts `κ`, of the further fields of a descriptor `X` and of
  the further fields of a layer descriptor `L` are parameters.
-/

namespace Schema2

/-! ## Data model -/

/-- Byte slices, the Go type []byte. -/
abbrev Bytes := List (Fin 256)

/-- Content digests: digest.Digest is a Go string type. -/
abbrev Digest := String

/-- Go error values as Build tells them apart: the distinguished
distribution.ErrBlobUnknown, and every other error value. -/
inductive Err where
  | ErrBlobUnknown
  | other (msg : String)
  deriving DecidableEq, Repr

/-- Modelled from the spec: distribution.Descriptor is declared outside
builder.go. Spec section 3: a content reference with a digest, a media type, a
size, "plus optional type-specific extra fields", which are the field Extra. -/
structure Descriptor (X : Type) where
  MediaType : String
  Size : Int
  Digest : Digest
  Extra : X
  deriving DecidableEq, Repr

/-- Modelled from the spec: LayerDescriptor is declared outside builder.go; the
source shows only that it embeds a Descriptor (the composite literal of
AppendReference and the selector in References). Spec section 3: "an enriched
descriptor record that embeds the plain descriptor plus extra fields". -/
structure LayerDescriptor (X L : Type) where
  Descriptor : Descriptor X
  Extra : L
  deriving DecidableEq, Repr

/-- Modelled from the spec: the type of the package value SchemaVersion, the
"schema/version tag" of a manifest. -/
structure Versioned where
  SchemaVersion : Int
  MediaType : String
  deriving DecidableEq, Repr

/-- Modelled from the spec: the struct Manifest is declared outside builder.go;
Build sets its fields Versioned, Layers and Config. Spec section 3: "schema/version
tag, configuration descriptor, ordered layer descriptor sequence". -/
structure Manifest (X L : Type) where
  Versioned : Versioned
  Config : Descriptor X
  Layers : List (LayerDescriptor X L)
  deriving DecidableEq, Repr

/-- Modelled from the spec: the value FromStruct returns, the finalized manifest:
the struct it was given together with its serialized form. -/
structure DeserializedManifest (X L : Type) where
  Manifest : Manifest X L
  canonical : Bytes
  deriving DecidableEq, Repr

/-- The zero value of a Descriptor. -/
def Descriptor.zero {X : Type} [Inhabited X] : Descriptor X :=
  { MediaType := "", Size := 0, Digest := "", Extra := default }

/-- The zero value of a LayerDescriptor. -/
def LayerDescriptor.zero {X L : Type} [Inhabited X] [Inhabited L] : LayerDescriptor X L :=
  { Descriptor := Descriptor.zero, Extra := default }

/-- The capability LayerDescribable: a value with a method LayerDescriptor(). -/
structure LayerDescribable (X L : Type) where
  LayerDescriptor : LayerDescriptor X L

/-- A reference handed to AppendReference: a distribution.Describable, with the
result of its method Descriptor(), and the outcome of the type assertion
d.(LayerDescribable): some capability when the dynamic type has it. -/
structure Describable (X L : Type) where
  Descriptor : Descriptor X
  asLayerDescribable : Option (LayerDescribable X L)

/-- The two methods of distribution.BlobService that builder.go calls, over a
store state σ. Each returns the Go result pair (descriptor, error) and the
store state after the call. Put is handed a slice, not a copy: PutWrites are the
assignments p[i] = x it makes through that slice during the call, none unless
stated. The store is taken not to keep the slice beyond the call. -/
structure BlobService (σ κ X : Type) where
  Stat : σ → κ → Digest → (Descriptor X × Option Err) × σ
  Put : σ → κ → String → Bytes → (Descriptor X × Option Err) × σ
  PutWrites : σ → κ → String → Bytes → List (Nat × Fin 256) := fun _ _ _ _ => []

/-- One call on the blob store, with its arguments. -/
inductive Call (κ : Type) where
  | Stat (ctx : κ) (dgst : Digest)
  | Put (ctx : κ) (mediaType : String) (p : Bytes)
  deriving DecidableEq, Repr

/-- The store and the calls made on it so far. -/
structure World (σ κ : Type) where
  store : σ
  calls : List (Call κ)

/-- Package-level names that builder.go uses and does not declare: the constants
MediaTypeConfig and SchemaVersion, the hash digest.FromBytes, and the serializer
inside FromStruct, which yields bytes and an error. -/
structure Pkg (X L : Type) where
  MediaTypeConfig : String
  SchemaVersion : Versioned
  FromBytes : Bytes → Digest
  MarshalIndent : Manifest X L → Bytes × Option Err

/-- The struct builder. -/
structure builder (σ κ X L : Type) where
  bs : BlobService σ κ X
  configJSON : Bytes
  layers : List (LayerDescriptor X L)

/-- What a call of Build leaves behind: its two Go results, the receiver, the store
and the store calls it made, in order. -/
structure BuildResult (σ κ X L : Type) where
  manifest : Option (DeserializedManifest X L)
  err : Option Err
  mb : builder σ κ X L
  store : σ
  calls : List (Call κ)

section Code

variable {σ κ X L : Type}

/-! ## Slices -/

/-- The Go builtin make([]T, n): n zero values. -/
def make {α : Type} (n : Nat) (zero : α) : List α :=
  List.replicate n zero

/-- The Go builtin copy(dst, src): the first min(len(dst), len(src)) elements of
dst are overwritten with those of src; returns dst after the call. -/
def copy {α : Type} (dst src : List α) : List α :=
  src.take (min dst.length src.length) ++ dst.drop (min dst.length src.length)

/-- The elements of a byte slice after the assignments p[i] = x of a list, made in
order. -/
def writeThrough (p : Bytes) (ws : List (Nat × Fin 256)) : Bytes :=
  ws.foldl (fun b w => b.set w.1 w.2) p

/-! ## Store calls -/

/-- The call bs.Stat(ctx, dgst), recorded. -/
def callStat (bs : BlobService σ κ X) (w : World σ κ) (ctx : κ) (dgst : Digest) :
    (Descriptor X × Option Err) × World σ κ :=
  ((bs.Stat w.store ctx dgst).1,
    { store := (bs.Stat w.store ctx dgst).2, calls := w.calls ++ [Call.Stat ctx dgst] })

/-- The call bs.Put(ctx, mediaType, p), recorded. -/
def callPut (bs : BlobService σ κ X) (w : World σ κ) (ctx : κ) (mediaType : String)
    (p : Bytes) : (Descriptor X × Option Err) × World σ κ :=
  ((bs.Put w.store ctx mediaType p).1,
    { store := (bs.Put w.store ctx mediaType p).2,
      calls := w.calls ++ [Call.Put ctx mediaType p] })

/-! ## builder.go -/

/-- Modelled from the spec: FromStruct is declared outside builder.go. Section 4.2
step 4: "Assemble and return the final immutable manifest value". It returns a
pointer to a fresh value holding the struct, and the error of the serializer. -/
def FromStruct (P : Pkg X L) (m : Manifest X L) :
    Option (DeserializedManifest X L) × Option Err :=
  (some { Manifest := m, canonical := (P.MarshalIndent m).1 }, (P.MarshalIndent m).2)

/-- NewManifestBuilder(bs, configJSON). -/
def NewManifestBuilder (bs : BlobService σ κ X) (configJSON : Bytes) : builder σ κ X L :=
  { bs := bs
    configJSON := copy (make configJSON.length (0 : Fin 256)) configJSON
    layers := [] }

/-- The return statements of Build. -/
def BuildResult.ret (r : Option (DeserializedManifest X L) × Option Err)
    (mb : builder σ κ X L) (w : World σ κ) : BuildResult σ κ X L :=
  { manifest := r.1, err := r.2, mb := mb, store := w.store, calls := w.calls }

/-- The method (mb *builder) Build(ctx), run on the store state s. The receiver in
the result is mb itself where Build returns before the Put; after the Put it is mb with
the bytes of configJSON as the store left them, since Put is handed that slice. -/
def Build [Inhabited X] [Inhabited L] (P : Pkg X L) (mb : builder σ κ X L) (ctx : κ)
    (s : σ) : BuildResult σ κ X L :=
  let w0 : World σ κ := { store := s, calls := [] }
  let m0 : Manifest X L :=
    { Versioned := P.SchemaVersion
      Config := Descriptor.zero
      Layers := copy (make mb.layers.length LayerDescriptor.zero) mb.layers }
  let configDigest := P.FromBytes mb.configJSON
  let r1 := callStat mb.bs w0 ctx configDigest
  let m1 : Manifest X L := { m0 with Config := r1.1.1 }
  if r1.1.2 = none then
    BuildResult.ret (FromStruct P m1) mb r1.2
  else if r1.1.2 = some Err.ErrBlobUnknown then
    let r2 := callPut mb.bs r1.2 ctx P.MediaTypeConfig mb.configJSON
    let mb2 : builder σ κ X L :=
      { mb with
        configJSON := writeThrough mb.configJSON
          (mb.bs.PutWrites r1.2.store ctx P.MediaTypeConfig mb.configJSON) }
    let m2 : Manifest X L := { m1 with Config := r2.1.1 }
    let m3 : Manifest X L :=
      { m2 with Config := { m2.Config with MediaType := P.MediaTypeConfig } }
    if r2.1.2 ≠ none then
      BuildResult.ret (none, r2.1.2) mb2 r2.2
    else
      BuildResult.ret (FromStruct P m3) mb2 r2.2
  else
    BuildResult.ret (none, r1.1.2) mb r1.2

/-- The method (mb *builder) AppendReference(d): the error it returns and the
receiver after the call. -/
def AppendReference [Inhabited L] (mb : builder σ κ X L) (d : Describable X L) :
    Option Err × builder σ κ X L :=
  match d.asLayerDescribable with
  | some ld => (none, { mb with layers := mb.layers ++ [ld.LayerDescriptor] })
  | none =>
    (none, { mb with layers := mb.layers ++ [{ Descriptor := d.Descriptor, Extra := default }] })

/-- The method (mb *builder) References(): the slice it returns and the receiver
after the call. -/
def References [Inhabited X] [Inhabited L] (mb : builder σ κ X L) :
    List (Descriptor X) × builder σ κ X L :=
  let ds : List (Descriptor X) := make mb.layers.length Descriptor.zero
  ((List.range mb.layers.length).foldl
      (fun ds i => ds.set i (mb.layers.getD i LayerDescriptor.zero).Descriptor) ds,
    mb)

/-! ## The configuration bytes in memory

A Go byte slice refers to a backing array; two slices on one array see each other's
writes. To speak of the caller's buffer after NewManifestBuilder, this section places
the byte slices in a memory of backing arrays. -/

/-- Memory for byte slices: the backing arrays, by address. -/
structure Heap where
  arrays : List Bytes
  deriving DecidableEq, Repr

/-- The bytes of the slice at an address. -/
def Heap.load (h : Heap) (a : Nat) : Bytes :=
  h.arrays.getD a []

/-- Overwrite the backing array at an address. -/
def Heap.store (h : Heap) (a : Nat) (v : Bytes) : Heap :=
  { arrays := h.arrays.set a v }

/-- The builtin make([]byte, n) in memory: a fresh backing array of n zero bytes, and
its address. -/
def Heap.makeBytes (h : Heap) (n : Nat) : Heap × Nat :=
  ({ arrays := h.arrays ++ [make n (0 : Fin 256)] }, h.arrays.length)

/-- The builtin copy(dst, src) in memory, on the slices at two addresses. -/
def Heap.copyBytes (h : Heap) (dst src : Nat) : Heap :=
  h.store dst (copy (h.load dst) (h.load src))

/-- The assignment buf[i] = x. -/
def Heap.setByte (h : Heap) (buf i : Nat) (x : Fin 256) : Heap :=
  h.store buf ((h.load buf).set i x)

/-- Successive assignments buf[i] = x to one buffer, in the order of the list. -/
def Heap.setBytes (h : Heap) (buf : Nat) (ws : List (Nat × Fin 256)) : Heap :=
  ws.foldl (fun hp w => hp.setByte buf w.1 w.2) h

/-- The struct builder with its field configJSON as a slice in memory. -/
structure builderAt (σ κ X L : Type) where
  bs : BlobService σ κ X
  configJSON : Nat
  layers : List (LayerDescriptor X L)

/-- The builder as its methods read it in a given memory. -/
def builderAt.read (m : builderAt σ κ X L) (h : Heap) : builder σ κ X L :=
  { bs := m.bs, configJSON := h.load m.configJSON, layers := m.layers }

/-- NewManifestBuilder(bs, configJSON) in memory, for the caller's slice at the address
configJSON: the memory after the call and the builder. -/
def NewManifestBuilderAt (bs : BlobService σ κ X) (h : Heap) (configJSON : Nat) :
    Heap × builderAt σ κ X L :=
  ((h.makeBytes (h.load configJSON).length).1.copyBytes
      (h.makeBytes (h.load configJSON).length).2 configJSON,
    { bs := bs, configJSON := (h.makeBytes (h.load configJSON).length).2, layers := [] })

/-! ## Drivers and vocabulary of the specification -/

/-- Successive calls of AppendReference on one builder, in the order of the list. -/
def AppendReferences [Inhabited L] (mb : builder σ κ X L) (rs : List (Describable X L)) :
    builder σ κ X L :=
  rs.foldl (fun b r => (AppendReference b r).2) mb

/-- Successive calls of Build on one builder, one per context of the list; each call
starts on the store as the previous call left it. -/
def Builds [Inhabited X] [Inhabited L] (P : Pkg X L) (mb : builder σ κ X L) :
    List κ → σ → List (BuildResult σ κ X L)
  | [], _ => []
  | ctx :: rest, s =>
    Build P mb ctx s :: Builds P (Build P mb ctx s).mb rest (Build P mb ctx s).store

/-- Spec section 4.1, normalize(reference): the enriched layer descriptor when the
reference can produce one, else the plain descriptor wrapped with no extra fields. -/
def normalize [Inhabited L] (r : Describable X L) : LayerDescriptor X L :=
  match r.asLayerDescribable with
  | some ld => ld.LayerDescriptor
  | none => { Descriptor := r.Descriptor, Extra := default }

/-- The plain descriptor that stands for a reference in the builder: the one embedded
in LayerDescriptor() for an enriched reference, the result of Descriptor() for a plain
one. -/
def embeddedDescriptor (r : Describable X L) : Descriptor X :=
  match r.asLayerDescribable with
  | some ld => ld.LayerDescriptor.Descriptor
  | none => r.Descriptor

/-- Whether a store call is a Put. -/
def Call.isPut : Call κ → Bool
  | Call.Put _ _ _ => true
  | Call.Stat _ _ => false

/-- The Put calls among the store calls. -/
def Puts (calls : List (Call κ)) : List (Call κ) :=
  calls.filter Call.isPut

/-- A digest is stored in state s: Stat of it succeeds, under every context, with a
descriptor carrying the digest. -/
def Stored (bs : BlobService σ κ X) (s : σ) (dgst : Digest) : Prop :=
  ∀ ctx, (bs.Stat s ctx dgst).1.2 = none ∧ (bs.Stat s ctx dgst).1.1.Digest = dgst

/-- Spec section 6, the contract of the blob store as far as publishing goes: a
successful Put returns a descriptor with the digest of the bytes, and from then on the
digest is stored; what is stored stays stored through every later Stat and Put. -/
structure StoreContract (bs : BlobService σ κ X) (FromBytes : Bytes → Digest) : Prop where
  put_digest : ∀ s ctx mt p, (bs.Put s ctx mt p).1.2 = none →
    (bs.Put s ctx mt p).1.1.Digest = FromBytes p
  put_stores : ∀ s ctx mt p, (bs.Put s ctx mt p).1.2 = none →
    Stored bs (bs.Put s ctx mt p).2 (FromBytes p)
  stat_keeps : ∀ s ctx dgst d, Stored bs s d → Stored bs (bs.Stat s ctx dgst).2 d
  put_keeps : ∀ s ctx mt p d, Stored bs s d → Stored bs (bs.Put s ctx mt p).2 d

/-- The contract of the blob store without its clause on the descriptor that Put
returns: a successful Put of bytes makes their digest stored, and what is stored stays
stored through every later Stat and Put. -/
structure PublishContract (bs : BlobService σ κ X) (FromBytes : Bytes → Digest) : Prop where
  put_stores : ∀ s ctx mt p, (bs.Put s ctx mt p).1.2 = none →
    Stored bs (bs.Put s ctx mt p).2 (FromBytes p)
  stat_keeps : ∀ s ctx dgst d, Stored bs s d → Stored bs (bs.Stat s ctx dgst).2 d
  put_keeps : ∀ s ctx mt p d, Stored bs s d → Stored bs (bs.Put s ctx mt p).2 d

/-- The error value context.Canceled, an error other than ErrBlobUnknown. -/
def Canceled : Err := Err.other "context canceled"

end Code

/-! ## Concrete stores and references -/

section Fixtures

/-- A stand-in for digest.FromBytes on small inputs: one letter per byte, by parity. -/
def toyDigest (p : Bytes) : Digest :=
  "toy:" ++ String.mk (p.map (fun x => if x.val % 2 = 0 then 'e' else 'o'))

/-- The package names at concrete values; serialization never fails. -/
def toyPkg : Pkg Unit (List String) where
  MediaTypeConfig := "application/vnd.docker.container.image.v1+json"
  SchemaVersion :=
    { SchemaVersion := 2, MediaType := "application/vnd.docker.distribution.manifest.v2+json" }
  FromBytes := toyDigest
  MarshalIndent := fun _ => ([], none)

/-- State of the in-memory store: free space, and digest and size of every blob. -/
structure MemStore where
  capacity : Nat
  blobs : List (Digest × Nat)
  deriving DecidableEq, Repr

/-- An in-memory blob store. Stat looks the digest up; Put stores the bytes under
their digest when they fit, and describes them with the generic media type. -/
def memBlobs (κ : Type) (FromBytes : Bytes → Digest) : BlobService MemStore κ Unit where
  Stat s _ dgst :=
    match s.blobs.lookup dgst with
    | some n =>
      (({ MediaType := "application/octet-stream", Size := n, Digest := dgst, Extra := () },
        none), s)
    | none => ((Descriptor.zero, some Err.ErrBlobUnknown), s)
  Put s _ _ p :=
    if p.length ≤ s.capacity then
      (({ MediaType := "application/octet-stream", Size := p.length, Digest := FromBytes p,
          Extra := () }, none),
        { capacity := s.capacity - p.length, blobs := (FromBytes p, p.length) :: s.blobs })
    else ((Descriptor.zero, some (Err.other "no space left")), s)

/-- A store without state that answers every Stat and every Put with a fixed pair. -/
def scripted (κ : Type) {X : Type} (stat put : Descriptor X × Option Err) :
    BlobService Unit κ X where
  Stat s _ _ := (stat, s)
  Put s _ _ _ := (put, s)

/-- The descriptor the in-memory store gives a blob. -/
def octet (dgst : Digest) (size : Int) : Descriptor Unit :=
  { MediaType := "application/octet-stream", Size := size, Digest := dgst, Extra := () }

/-- A builder on the in-memory store for the configuration bytes 1, 2, 3, whose toy
digest is "toy:oeo". -/
def toyBuilder : builder MemStore Unit Unit (List String) :=
  NewManifestBuilder (memBlobs Unit toyDigest) [1, 2, 3]

/-- An in-memory store with room for ten bytes and no blob. -/
def emptyStore : MemStore := { capacity := 10, blobs := [] }

/-- An in-memory store that holds the blob of digest "toy:oeo", of size 3. -/
def holdingStore : MemStore := { capacity := 7, blobs := [("toy:oeo", 3)] }

/-- An in-memory store with room for two bytes and no blob. -/
def fullStore : MemStore := { capacity := 2, blobs := [] }

/-- A builder on a store whose Stat fails with a backend error. -/
def downBuilder : builder Unit Unit Unit (List String) :=
  NewManifestBuilder
    (scripted Unit (Descriptor.zero, some (Err.other "backend unavailable"))
      (Descriptor.zero, some (Err.other "backend unavailable")))
    [1, 2, 3]

/-- A builder on a store whose Stat and whose Put both return ErrBlobUnknown. -/
def unknownBuilder : builder Unit Unit Unit (List String) :=
  NewManifestBuilder
    (scripted Unit (Descriptor.zero, some Err.ErrBlobUnknown)
      (Descriptor.zero, some Err.ErrBlobUnknown))
    [1, 2, 3]

/-- The in-memory store with a Put that reports every blob it stores under the digest
"sha512:0f", whatever its bytes; Stat is unchanged. -/
def lyingBlobs (κ : Type) (FromBytes : Bytes → Digest) : BlobService MemStore κ Unit where
  Stat := (memBlobs κ FromBytes).Stat
  Put s ctx mt p :=
    (({ ((memBlobs κ FromBytes).Put s ctx mt p).1.1 with Digest := "sha512:0f" },
        ((memBlobs κ FromBytes).Put s ctx mt p).1.2),
      ((memBlobs κ FromBytes).Put s ctx mt p).2)

/-- The in-memory store with a Put that also assigns p[0] = 8 in the slice it is
handed. -/
def scribblingBlobs (κ : Type) (FromBytes : Bytes → Digest) : BlobService MemStore κ Unit where
  Stat := (memBlobs κ FromBytes).Stat
  Put := (memBlobs κ FromBytes).Put
  PutWrites := fun _ _ _ _ => [(0, 8)]

/-- A builder for the bytes 1, 2, 3 on the store whose Put reports a fixed digest. -/
def lyingBuilder : builder MemStore Unit Unit (List String) :=
  NewManifestBuilder (lyingBlobs Unit toyDigest) [1, 2, 3]

/-- A builder for the bytes 1, 2, 3 on the store whose Put writes into the slice. -/
def scribbledBuilder : builder MemStore Unit Unit (List String) :=
  NewManifestBuilder (scribblingBlobs Unit toyDigest) [1, 2, 3]

/-- Contexts of the examples: live, or cancelled while the Stat, or while the Put, of a
Build is outstanding. -/
inductive ToyCtx where
  | live
  | cancelledInStat
  | cancelledInPut
  deriving DecidableEq, Repr

/-- The in-memory store made to honour cancellation: the call that is outstanding when
the context is cancelled returns context.Canceled and does nothing else. -/
def ctxBlobs (FromBytes : Bytes → Digest) : BlobService MemStore ToyCtx Unit where
  Stat s ctx dgst :=
    if ctx = ToyCtx.cancelledInStat then ((Descriptor.zero, some Canceled), s)
    else (memBlobs ToyCtx FromBytes).Stat s ctx dgst
  Put s ctx mt p :=
    if ctx = ToyCtx.cancelledInPut then ((Descriptor.zero, some Canceled), s)
    else (memBlobs ToyCtx FromBytes).Put s ctx mt p

/-- A builder for the bytes 1, 2, 3 on the store that honours cancellation. -/
def honouringBuilder : builder MemStore ToyCtx Unit (List String) :=
  NewManifestBuilder (ctxBlobs toyDigest) [1, 2, 3]

/-- A builder for the bytes 1, 2, 3 on the in-memory store, which ignores the context. -/
def ignoringBuilder : builder MemStore ToyCtx Unit (List String) :=
  NewManifestBuilder (memBlobs ToyCtx toyDigest) [1, 2, 3]

/-- A descriptor of a layer blob. -/
def layerDesc (dgst : Digest) (size : Int) : Descriptor Unit :=
  { MediaType := "application/vnd.docker.image.rootfs.diff.tar.gzip", Size := size,
    Digest := dgst, Extra := () }

/-- A reference with the method Descriptor() only. -/
def plainRef (dgst : Digest) (size : Int) : Describable Unit (List String) :=
  { Descriptor := layerDesc dgst size, asLayerDescribable := none }

/-- A reference that is also LayerDescribable; its LayerDescriptor() embeds the
descriptor inner and its Descriptor() returns outer. -/
def richRef (outer inner : Descriptor Unit) (urls : List String) :
    Describable Unit (List String) :=
  { Descriptor := outer
    asLayerDescribable := some { LayerDescriptor := { Descriptor := inner, Extra := urls } } }

/-- An enriched reference whose two methods disagree: Descriptor() returns the
descriptor of "toy:x", LayerDescriptor() embeds the descriptor of "toy:y". -/
def mismatchedRef : Describable Unit (List String) :=
  richRef (layerDesc "toy:x" 1) (layerDesc "toy:y" 2) ["https://mirror.example/y"]

/-- A memory with one buffer, at address 0, holding the bytes 1, 2, 3. -/
def callerHeap : Heap := { arrays := [[1, 2, 3]] }

/-- NewManifestBuilder in that memory on the in-memory store, for the caller's buffer at
address 0: the memory after the call and the builder. -/
def copiedBuilder : Heap × builderAt MemStore Unit Unit (List String) :=
  NewManifestBuilderAt (memBlobs Unit toyDigest) callerHeap 0

/-- Three references: plain, enriched, plain. -/
def threeRefs : List (Describable Unit (List String)) :=
  [plainRef "toy:a" 10,
    richRef (layerDesc "toy:b" 20) (layerDesc "toy:b" 20) ["https://mirror.example/b"],
    plainRef "toy:c" 30]

end Fixtures

/-! ## Lemmas on slices and on the builder -/

section Lemmas

variable {σ κ X L : Type}

theorem copy_make {α : Type} (zero : α) (src : List α) :
    copy (make src.length zero) src = src := by
  simp [copy, make]

theorem NewManifestBuilder_configJSON (bs : BlobService σ κ X) (config : Bytes) :
    (NewManifestBuilder bs config : builder σ κ X L).configJSON = config := by
  simp [NewManifestBuilder, copy_make]

theorem AppendReference_eq [Inhabited L] (mb : builder σ κ X L) (d : Describable X L) :
    AppendReference mb d = (none, { mb with layers := mb.layers ++ [normalize d] }) := by
  unfold AppendReference normalize
  cases d.asLayerDescribable <;> rfl

theorem AppendReferences_eq [Inhabited L] (mb : builder σ κ X L)
    (rs : List (Describable X L)) :
    AppendReferences mb rs = { mb with layers := mb.layers ++ rs.map normalize } := by
  induction rs generalizing mb with
  | nil => simp [AppendReferences]
  | cons r rs ih =>
    have h : AppendReferences mb (r :: rs) = AppendReferences (AppendReference mb r).2 rs := rfl
    rw [h, ih, AppendReference_eq]
    simp

/-- On the reuse path Build returns after the Stat call. -/
theorem Build_of_stat_ok [Inhabited X] [Inhabited L] (P : Pkg X L) (mb : builder σ κ X L)
    (ctx : κ) (s : σ) (h : (mb.bs.Stat s ctx (P.FromBytes mb.configJSON)).1.2 = none) :
    Build P mb ctx s =
      BuildResult.ret
        (FromStruct P
          { Versioned := P.SchemaVersion
            Config := (mb.bs.Stat s ctx (P.FromBytes mb.configJSON)).1.1
            Layers := mb.layers })
        mb
        { store := (mb.bs.Stat s ctx (P.FromBytes mb.configJSON)).2
          calls := [Call.Stat ctx (P.FromBytes mb.configJSON)] } := by
  simp [Build, callStat, h, copy_make]

/-- On a Stat error other than ErrBlobUnknown Build returns it after the Stat call. -/
theorem Build_of_stat_err [Inhabited X] [Inhabited L] (P : Pkg X L) (mb : builder σ κ X L)
    (ctx : κ) (s : σ) (e : Err)
    (h : (mb.bs.Stat s ctx (P.FromBytes mb.configJSON)).1.2 = some e)
    (he : e ≠ Err.ErrBlobUnknown) :
    Build P mb ctx s =
      BuildResult.ret (none, some e) mb
        { store := (mb.bs.Stat s ctx (P.FromBytes mb.configJSON)).2
          calls := [Call.Stat ctx (P.FromBytes mb.configJSON)] } := by
  simp [Build, callStat, h, he]

/-- On the publish path with a failing Put, Build returns the error of Put. -/
theorem Build_of_put_err [Inhabited X] [Inhabited L] (P : Pkg X L) (mb : builder σ κ X L)
    (ctx : κ) (s : σ) (e : Err)
    (h : (mb.bs.Stat s ctx (P.FromBytes mb.configJSON)).1.2 = some Err.ErrBlobUnknown)
    (hp : (mb.bs.Put (mb.bs.Stat s ctx (P.FromBytes mb.configJSON)).2 ctx P.MediaTypeConfig
      mb.configJSON).1.2 = some e) :
    Build P mb ctx s =
      BuildResult.ret (none, some e)
        { mb with
          configJSON := writeThrough mb.configJSON
            (mb.bs.PutWrites (mb.bs.Stat s ctx (P.FromBytes mb.configJSON)).2 ctx
              P.MediaTypeConfig mb.configJSON) }
        { store := (mb.bs.Put (mb.bs.Stat s ctx (P.FromBytes mb.configJSON)).2 ctx
            P.MediaTypeConfig mb.configJSON).2
          calls := [Call.Stat ctx (P.FromBytes mb.configJSON),
            Call.Put ctx P.MediaTypeConfig mb.configJSON] } := by
  simp [Build, callStat, callPut, h, hp]

/-- On the publish path with a successful Put, Build assembles the manifest from the
descriptor of Put with the media type overwritten. -/
theorem Build_of_put_ok [Inhabited X] [Inhabited L] (P : Pkg X L) (mb : builder σ κ X L)
    (ctx : κ) (s : σ)
    (h : (mb.bs.Stat s ctx (P.FromBytes mb.configJSON)).1.2 = some Err.ErrBlobUnknown)
    (hp : (mb.bs.Put (mb.bs.Stat s ctx (P.FromBytes mb.configJSON)).2 ctx P.MediaTypeConfig
      mb.configJSON).1.2 = none) :
    Build P mb ctx s =
      BuildResult.ret
        (FromStruct P
          { Versioned := P.SchemaVersion
            Config :=
              { (mb.bs.Put (mb.bs.Stat s ctx (P.FromBytes mb.configJSON)).2 ctx
                  P.MediaTypeConfig mb.configJSON).1.1 with
                MediaType := P.MediaTypeConfig }
            Layers := mb.layers })
        { mb with
          configJSON := writeThrough mb.configJSON
            (mb.bs.PutWrites (mb.bs.Stat s ctx (P.FromBytes mb.configJSON)).2 ctx
              P.MediaTypeConfig mb.configJSON) }
        { store := (mb.bs.Put (mb.bs.Stat s ctx (P.FromBytes mb.configJSON)).2 ctx
            P.MediaTypeConfig mb.configJSON).2
          calls := [Call.Stat ctx (P.FromBytes mb.configJSON),
            Call.Put ctx P.MediaTypeConfig mb.configJSON] } := by
  simp [Build, callStat, callPut, h, hp, copy_make]

/-- Whatever the store answers, a manifest that Build returns has the layers of the
builder, in order. -/
theorem Build_manifest_layers [Inhabited X] [Inhabited L] (P : Pkg X L)
    (mb : builder σ κ X L) (ctx : κ) (s : σ) (dm : DeserializedManifest X L)
    (h : (Build P mb ctx s).manifest = some dm) : dm.Manifest.Layers = mb.layers := by
  by_cases h1 : (mb.bs.Stat s ctx (P.FromBytes mb.configJSON)).1.2 = none
  · rw [Build_of_stat_ok P mb ctx s h1] at h
    simp [BuildResult.ret, FromStruct] at h
    rw [← h]
  · by_cases h2 : (mb.bs.Stat s ctx (P.FromBytes mb.configJSON)).1.2 = some Err.ErrBlobUnknown
    · by_cases h3 : (mb.bs.Put (mb.bs.Stat s ctx (P.FromBytes mb.configJSON)).2 ctx
          P.MediaTypeConfig mb.configJSON).1.2 = none
      · rw [Build_of_put_ok P mb ctx s h2 h3] at h
        simp [BuildResult.ret, FromStruct] at h
        rw [← h]
      · obtain ⟨e, he⟩ := Option.ne_none_iff_exists'.mp h3
        rw [Build_of_put_err P mb ctx s e h2 he] at h
        simp [BuildResult.ret] at h
    · obtain ⟨e, he⟩ := Option.ne_none_iff_exists'.mp h1
      have hne : e ≠ Err.ErrBlobUnknown := fun hh => h2 (by rw [he, hh])
      rw [Build_of_stat_err P mb ctx s e he hne] at h
      simp [BuildResult.ret] at h

/-- A Build that returns no error returns a manifest. -/
theorem Build_manifest_of_ok [Inhabited X] [Inhabited L] (P : Pkg X L)
    (mb : builder σ κ X L) (ctx : κ) (s : σ) (h : (Build P mb ctx s).err = none) :
    ∃ dm, (Build P mb ctx s).manifest = some dm := by
  by_cases h1 : (mb.bs.Stat s ctx (P.FromBytes mb.configJSON)).1.2 = none
  · rw [Build_of_stat_ok P mb ctx s h1]
    simp [BuildResult.ret, FromStruct]
  · by_cases h2 : (mb.bs.Stat s ctx (P.FromBytes mb.configJSON)).1.2 = some Err.ErrBlobUnknown
    · by_cases h3 : (mb.bs.Put (mb.bs.Stat s ctx (P.FromBytes mb.configJSON)).2 ctx
          P.MediaTypeConfig mb.configJSON).1.2 = none
      · rw [Build_of_put_ok P mb ctx s h2 h3]
        simp [BuildResult.ret, FromStruct]
      · obtain ⟨e, he⟩ := Option.ne_none_iff_exists'.mp h3
        rw [Build_of_put_err P mb ctx s e h2 he] at h
        simp [BuildResult.ret] at h
    · obtain ⟨e, he⟩ := Option.ne_none_iff_exists'.mp h1
      have hne : e ≠ Err.ErrBlobUnknown := fun hh => h2 (by rw [he, hh])
      rw [Build_of_stat_err P mb ctx s e he hne] at h
      simp [BuildResult.ret] at h

/-- Build leaves the layers of the receiver as it found them. -/
theorem Build_mb_layers [Inhabited X] [Inhabited L] (P : Pkg X L) (mb : builder σ κ X L)
    (ctx : κ) (s : σ) : (Build P mb ctx s).mb.layers = mb.layers := by
  unfold Build
  simp only []
  split_ifs <;> rfl

/-- Build leaves the store handle of the receiver as it found it. -/
theorem Build_mb_bs [Inhabited X] [Inhabited L] (P : Pkg X L) (mb : builder σ κ X L)
    (ctx : κ) (s : σ) : (Build P mb ctx s).mb.bs = mb.bs := by
  unfold Build
  simp only []
  split_ifs <;> rfl

/-- Unless the Stat returns ErrBlobUnknown, Build makes no Put and leaves the receiver
as it found it. -/
theorem Build_mb_of_not_unknown [Inhabited X] [Inhabited L] (P : Pkg X L)
    (mb : builder σ κ X L) (ctx : κ) (s : σ)
    (h : (mb.bs.Stat s ctx (P.FromBytes mb.configJSON)).1.2 ≠ some Err.ErrBlobUnknown) :
    (Build P mb ctx s).mb = mb := by
  unfold Build
  simp only [callStat]
  split_ifs <;> rfl

/-- When the Stat returns ErrBlobUnknown, the configuration bytes of the receiver after
Build are those the Put left in the slice. -/
theorem Build_mb_configJSON_of_unknown [Inhabited X] [Inhabited L] (P : Pkg X L)
    (mb : builder σ κ X L) (ctx : κ) (s : σ)
    (h : (mb.bs.Stat s ctx (P.FromBytes mb.configJSON)).1.2 = some Err.ErrBlobUnknown) :
    (Build P mb ctx s).mb.configJSON = writeThrough mb.configJSON
      (mb.bs.PutWrites (mb.bs.Stat s ctx (P.FromBytes mb.configJSON)).2 ctx
        P.MediaTypeConfig mb.configJSON) := by
  unfold Build
  simp only [callStat, h]
  split_ifs <;> first | rfl | simp_all

/-- Writes through a slice do not change its length. -/
theorem writeThrough_length (ws : List (Nat × Fin 256)) :
    ∀ p : Bytes, (writeThrough p ws).length = p.length := by
  induction ws with
  | nil => intro p; rfl
  | cons w ws ih =>
    intro p
    have hstep : writeThrough p (w :: ws) = writeThrough (p.set w.1 w.2) ws := rfl
    rw [hstep, ih, List.length_set]

/-- Build on a store in which the digest of the configuration is stored: one Stat, no
Put, a manifest with that digest, and the digest is still stored afterwards. -/
theorem Build_of_stored [Inhabited X] [Inhabited L] (P : Pkg X L) (mb : builder σ κ X L)
    (ctx : κ) (s : σ) (hc : StoreContract mb.bs P.FromBytes)
    (hs : Stored mb.bs s (P.FromBytes mb.configJSON)) :
    Puts (Build P mb ctx s).calls = [] ∧
    Stored mb.bs (Build P mb ctx s).store (P.FromBytes mb.configJSON) ∧
    ∃ dm, (Build P mb ctx s).manifest = some dm ∧
      dm.Manifest.Config.Digest = P.FromBytes mb.configJSON := by
  rw [Build_of_stat_ok P mb ctx s (hs ctx).1]
  refine ⟨by simp [BuildResult.ret, Puts, Call.isPut], ?_, _, rfl, (hs ctx).2⟩
  exact hc.stat_keeps s ctx _ _ hs

/-- Successive Builds from a store in which the digest of the configuration is stored:
none invokes Put and each returns a manifest with that digest. -/
theorem Builds_of_stored [Inhabited X] [Inhabited L] (P : Pkg X L) (mb : builder σ κ X L)
    (hc : StoreContract mb.bs P.FromBytes) (cs : List κ) :
    ∀ s, Stored mb.bs s (P.FromBytes mb.configJSON) →
      ∀ o ∈ Builds P mb cs s, Puts o.calls = [] ∧
        ∃ dm, o.manifest = some dm ∧
          dm.Manifest.Config.Digest = P.FromBytes mb.configJSON := by
  induction cs with
  | nil => intro s _ o ho; simp [Builds] at ho
  | cons c cs ih =>
    intro s hs o ho
    obtain ⟨h1, h2, h3⟩ := Build_of_stored P mb c s hc hs
    simp only [Builds, List.mem_cons] at ho
    rcases ho with ho | ho
    · rw [ho]; exact ⟨h1, h3⟩
    · have hmb : (Build P mb c s).mb = mb :=
        Build_mb_of_not_unknown P mb c s (by rw [(hs c).1]; simp)
      rw [hmb] at ho
      exact ih _ h2 o ho

/-- The in-memory store leaves its state alone on Stat. -/
theorem memBlobs_Stat_store (κ : Type) (F : Bytes → Digest) (s : MemStore) (ctx : κ)
    (dgst : Digest) : ((memBlobs κ F).Stat s ctx dgst).2 = s := by
  simp only [memBlobs]
  split <;> rfl

/-- In the in-memory store a digest is stored as soon as it is among the blobs. -/
theorem memBlobs_stored_of_lookup (κ : Type) (F : Bytes → Digest) (s : MemStore)
    (d : Digest) (n : Nat) (h : s.blobs.lookup d = some n) : Stored (memBlobs κ F) s d := by
  intro ctx
  simp [memBlobs, h]

/-- In the in-memory store a digest on which Stat succeeds is among the blobs. -/
theorem memBlobs_lookup_of_stat (κ : Type) (F : Bytes → Digest) (s : MemStore) (ctx : κ)
    (d : Digest) (h : ((memBlobs κ F).Stat s ctx d).1.2 = none) :
    ∃ n, s.blobs.lookup d = some n := by
  cases hl : s.blobs.lookup d with
  | none => simp [memBlobs, hl] at h
  | some n => exact ⟨n, rfl⟩

/-- The in-memory store meets the contract of the blob store. -/
theorem memBlobs_contract (κ : Type) (F : Bytes → Digest) :
    StoreContract (memBlobs κ F) F where
  put_digest := by
    intro s ctx mt p h
    by_cases hfit : p.length ≤ s.capacity
    · simp [memBlobs, hfit]
    · simp [memBlobs, hfit] at h
  put_stores := by
    intro s ctx mt p h
    by_cases hfit : p.length ≤ s.capacity
    · apply memBlobs_stored_of_lookup κ F _ _ p.length
      simp [memBlobs, hfit, List.lookup]
    · simp [memBlobs, hfit] at h
  stat_keeps := by
    intro s ctx dgst d h
    rw [memBlobs_Stat_store]
    exact h
  put_keeps := by
    intro s ctx mt p d h c
    obtain ⟨n, hn⟩ := memBlobs_lookup_of_stat κ F s c d (h c).1
    by_cases hfit : p.length ≤ s.capacity
    · by_cases hd : d = F p
      · have hl : ((memBlobs κ F).Put s ctx mt p).2.blobs.lookup d = some p.length := by
          simp [memBlobs, hfit, List.lookup, hd]
        exact memBlobs_stored_of_lookup κ F _ d _ hl c
      · have hl : ((memBlobs κ F).Put s ctx mt p).2.blobs.lookup d = some n := by
          have hb : (d == F p) = false := by simpa using hd
          simp [memBlobs, hfit, List.lookup, hb, hn]
        exact memBlobs_stored_of_lookup κ F _ d _ hl c
    · have hst : ((memBlobs κ F).Put s ctx mt p).2 = s := by simp [memBlobs, hfit]
      rw [hst]
      exact h c

/-- The store whose Put reports a fixed digest still stores and keeps blobs as the
in-memory store does. -/
theorem lyingBlobs_contract (κ : Type) (F : Bytes → Digest) :
    PublishContract (lyingBlobs κ F) F where
  put_stores := fun s ctx mt p h => (memBlobs_contract κ F).put_stores s ctx mt p h
  stat_keeps := fun s ctx dgst d h => (memBlobs_contract κ F).stat_keeps s ctx dgst d h
  put_keeps := fun s ctx mt p d h => (memBlobs_contract κ F).put_keeps s ctx mt p d h

/-- The store whose Put writes into the slice meets the contract of the blob store,
which speaks of the results of Stat and Put only. -/
theorem scribblingBlobs_contract (κ : Type) (F : Bytes → Digest) :
    StoreContract (scribblingBlobs κ F) F where
  put_digest := fun s ctx mt p h => (memBlobs_contract κ F).put_digest s ctx mt p h
  put_stores := fun s ctx mt p h => (memBlobs_contract κ F).put_stores s ctx mt p h
  stat_keeps := fun s ctx dgst d h => (memBlobs_contract κ F).stat_keeps s ctx dgst d h
  put_keeps := fun s ctx mt p d h => (memBlobs_contract κ F).put_keeps s ctx mt p d h

/-- The loop of References after k rounds: the first k places hold the converted
elements of l, the others still the zero value. -/
theorem set_loop_get {α β : Type} (l : List β) (f : β → α) (z : α) (d : β) :
    ∀ k, k ≤ l.length →
      ((List.range k).foldl (fun ds i => ds.set i (f (l.getD i d)))
          (List.replicate l.length z)).length = l.length ∧
      ∀ j, ((List.range k).foldl (fun ds i => ds.set i (f (l.getD i d)))
          (List.replicate l.length z))[j]? =
        if j < k then some (f (l.getD j d)) else if j < l.length then some z else none := by
  intro k
  induction k with
  | zero =>
    intro _
    refine ⟨by simp, fun j => ?_⟩
    simp [List.getElem?_replicate]
  | succ k ih =>
    intro hk
    obtain ⟨hlen, hget⟩ := ih (by omega)
    rw [List.range_succ, List.foldl_append]
    simp only [List.foldl_cons, List.foldl_nil]
    refine ⟨by rw [List.length_set, hlen], fun j => ?_⟩
    rw [List.getElem?_set, hget, hlen]
    by_cases hjk : k = j
    · subst hjk
      simp
      omega
    · have : (j < k + 1) = (j < k) := by
        apply propext; constructor <;> intro h <;> omega
      simp [hjk, this]

/-- References returns the embedded descriptors of the layers, in order, and the
receiver as it was. -/
theorem References_eq [Inhabited X] [Inhabited L] (mb : builder σ κ X L) :
    References mb = (mb.layers.map (fun ld => ld.Descriptor), mb) := by
  unfold References make
  simp only [Prod.mk.injEq, and_true]
  apply List.ext_getElem?
  intro j
  rw [(set_loop_get mb.layers (fun ld => ld.Descriptor) Descriptor.zero LayerDescriptor.zero
    mb.layers.length (le_refl _)).2 j, List.getElem?_map]
  by_cases hj : j < mb.layers.length
  · simp [hj, List.getD_eq_getElem?_getD, List.getElem?_eq_getElem hj]
  · simp [hj, List.getElem?_eq_none (not_lt.mp hj)]

/-- The store calls of Build: the Stat alone, or, when and only when the Stat
returned ErrBlobUnknown, the Stat and then one Put of the configuration bytes. -/
theorem Build_calls [Inhabited X] [Inhabited L] (P : Pkg X L) (mb : builder σ κ X L)
    (ctx : κ) (s : σ) :
    ((mb.bs.Stat s ctx (P.FromBytes mb.configJSON)).1.2 ≠ some Err.ErrBlobUnknown ∧
      (Build P mb ctx s).calls = [Call.Stat ctx (P.FromBytes mb.configJSON)]) ∨
    ((mb.bs.Stat s ctx (P.FromBytes mb.configJSON)).1.2 = some Err.ErrBlobUnknown ∧
      (Build P mb ctx s).calls = [Call.Stat ctx (P.FromBytes mb.configJSON),
        Call.Put ctx P.MediaTypeConfig mb.configJSON]) := by
  by_cases h1 : (mb.bs.Stat s ctx (P.FromBytes mb.configJSON)).1.2 = none
  · left
    rw [Build_of_stat_ok P mb ctx s h1]
    exact ⟨by rw [h1]; simp, rfl⟩
  · by_cases h2 : (mb.bs.Stat s ctx (P.FromBytes mb.configJSON)).1.2 = some Err.ErrBlobUnknown
    · right
      refine ⟨h2, ?_⟩
      by_cases h3 : (mb.bs.Put (mb.bs.Stat s ctx (P.FromBytes mb.configJSON)).2 ctx
          P.MediaTypeConfig mb.configJSON).1.2 = none
      · rw [Build_of_put_ok P mb ctx s h2 h3]; rfl
      · obtain ⟨e, he⟩ := Option.ne_none_iff_exists'.mp h3
        rw [Build_of_put_err P mb ctx s e h2 he]; rfl
    · left
      obtain ⟨e, he⟩ := Option.ne_none_iff_exists'.mp h1
      have hne : e ≠ Err.ErrBlobUnknown := fun hh => h2 (by rw [he, hh])
      rw [Build_of_stat_err P mb ctx s e he hne]
      exact ⟨h2, rfl⟩

/-- Reading an address other than the one written. -/
theorem Heap.load_store_ne (h : Heap) (a b : Nat) (v : Bytes) (hab : a ≠ b) :
    (h.store a v).load b = h.load b := by
  simp [Heap.load, Heap.store, List.getD_eq_getElem?_getD, List.getElem?_set_ne hab]

/-- Reading the address written, when it is allocated. -/
theorem Heap.load_store_eq (h : Heap) (a : Nat) (v : Bytes) (ha : a < h.arrays.length) :
    (h.store a v).load a = v := by
  simp [Heap.load, Heap.store, List.getD_eq_getElem?_getD, ha]

/-- Writes to one buffer leave every other buffer as it was. -/
theorem Heap.load_setBytes_ne (buf b : Nat) (hne : buf ≠ b) (ws : List (Nat × Fin 256)) :
    ∀ h : Heap, (h.setBytes buf ws).load b = h.load b := by
  induction ws with
  | nil => intro h; rfl
  | cons w ws ih =>
    intro h
    have hstep : h.setBytes buf (w :: ws) = (h.setByte buf w.1 w.2).setBytes buf ws := rfl
    rw [hstep, ih, Heap.setByte, Heap.load_store_ne _ _ _ _ hne]

/-- After NewManifestBuilder in memory, the slice of the builder is a fresh array, not
the caller's, holding the bytes of the caller's slice. -/
theorem NewManifestBuilderAt_load (bs : BlobService σ κ X) (h : Heap) (caller : Nat)
    (hvalid : caller < h.arrays.length) :
    (NewManifestBuilderAt bs h caller : Heap × builderAt σ κ X L).2.configJSON
        = h.arrays.length ∧
    (NewManifestBuilderAt bs h caller : Heap × builderAt σ κ X L).1.load h.arrays.length
        = h.load caller := by
  refine ⟨rfl, ?_⟩
  have hc : (h.makeBytes (h.load caller).length).1.load caller = h.load caller := by
    simp [Heap.makeBytes, Heap.load, List.getD_eq_getElem?_getD,
      List.getElem?_append_left hvalid]
  have hd : (h.makeBytes (h.load caller).length).1.load h.arrays.length
      = make (h.load caller).length (0 : Fin 256) := by
    simp [Heap.makeBytes, Heap.load, List.getD_eq_getElem?_getD]
  have hlen : h.arrays.length < (h.makeBytes (h.load caller).length).1.arrays.length := by
    simp [Heap.makeBytes]
  simp only [NewManifestBuilderAt, Heap.copyBytes]
  have h2 : (h.makeBytes (h.load caller).length).2 = h.arrays.length := rfl
  rw [h2, Heap.load_store_eq _ _ _ hlen, hc, hd, copy_make]

/-- The writes of the example do change the caller's buffer, and only that. -/
theorem copiedBuilder_setBytes :
    (copiedBuilder.1.setBytes 0 [(0, 9), (2, 7)]).arrays = [[9, 2, 7], [1, 2, 3]] := by
  decide

/-- The builder made in memory, read in the memory the call leaves, is the builder made
from the bytes of the caller's slice. -/
theorem NewManifestBuilderAt_read (bs : BlobService σ κ X) (h : Heap) (caller : Nat)
    (hvalid : caller < h.arrays.length) :
    (NewManifestBuilderAt bs h caller : Heap × builderAt σ κ X L).2.read
        (NewManifestBuilderAt bs h caller : Heap × builderAt σ κ X L).1
      = NewManifestBuilder bs (h.load caller) := by
  obtain ⟨haddr, hload⟩ :=
    (NewManifestBuilderAt_load bs h caller hvalid :
      (NewManifestBuilderAt bs h caller : Heap × builderAt σ κ X L).2.configJSON
          = h.arrays.length ∧ _)
  simp only [builderAt.read, NewManifestBuilder, copy_make]
  rw [haddr, hload]
  rfl

end Lemmas

/-! ## The claims -/

section Claims

variable {σ κ X L : Type}

/-- C1, order preservation: after NewManifestBuilder and the references rs appended
in order, every Build that returns no error returns a manifest whose Layers are the
normalized layer descriptors of rs, in append order: the same length as rs, and at every
index i the normalized descriptor of the i-th reference. The store is arbitrary, so
this covers the reuse path and the publish path. -/
theorem build_layers_in_append_order [Inhabited X] [Inhabited L] (P : Pkg X L)
    (bs : BlobService σ κ X) (config : Bytes) (rs : List (Describable X L)) (ctx : κ)
    (s : σ)
    (hok : (Build P (AppendReferences (NewManifestBuilder bs config) rs) ctx s).err = none) :
    ∃ dm, (Build P (AppendReferences (NewManifestBuilder bs config) rs) ctx s).manifest
        = some dm ∧
      dm.Manifest.Layers = rs.map normalize ∧
      dm.Manifest.Layers.length = rs.length ∧
      ∀ i, dm.Manifest.Layers.get? i = (rs.get? i).map normalize := by
  obtain ⟨dm, hdm⟩ := Build_manifest_of_ok P _ ctx s hok
  have hl := Build_manifest_layers P _ ctx s dm hdm
  rw [AppendReferences_eq] at hl
  have hl2 : dm.Manifest.Layers = rs.map normalize := by
    rw [hl]
    simp [NewManifestBuilder]
  refine ⟨dm, hdm, hl2, ?_, ?_⟩
  · rw [hl2, List.length_map]
  · intro i
    rw [hl2]
    simp

/-- C1 at three references (plain, enriched, plain) on the publish path of the
in-memory store. -/
theorem build_layers_in_append_order_witness :
    (Build toyPkg (AppendReferences (NewManifestBuilder (memBlobs Unit toyDigest) [1, 2, 3])
        threeRefs) () emptyStore).err = none ∧
    ∃ dm, (Build toyPkg (AppendReferences (NewManifestBuilder (memBlobs Unit toyDigest)
        [1, 2, 3]) threeRefs) () emptyStore).manifest = some dm ∧
      dm.Manifest.Layers = threeRefs.map normalize ∧
      dm.Manifest.Layers.length = threeRefs.length ∧
      ∀ i, dm.Manifest.Layers.get? i = (threeRefs.get? i).map normalize :=
  ⟨by decide,
    build_layers_in_append_order toyPkg (memBlobs Unit toyDigest) [1, 2, 3] threeRefs ()
      emptyStore (by decide)⟩

/-- C2, dedup: when Stat of the digest of the configuration bytes succeeds with a
descriptor d, Build makes that one Stat call and no Put, and returns a manifest whose
configuration descriptor is d, every field unchanged; so when d carries the queried
digest, the configuration digest is the hash of the configuration bytes. -/
theorem build_reuses_stat_descriptor [Inhabited X] [Inhabited L] (P : Pkg X L)
    (mb : builder σ κ X L) (ctx : κ) (s : σ) (d : Descriptor X)
    (hstat : (mb.bs.Stat s ctx (P.FromBytes mb.configJSON)).1 = (d, none)) :
    Puts (Build P mb ctx s).calls = [] ∧
    (Build P mb ctx s).calls = [Call.Stat ctx (P.FromBytes mb.configJSON)] ∧
    ∃ dm, (Build P mb ctx s).manifest = some dm ∧
      dm.Manifest.Config = d ∧
      (d.Digest = P.FromBytes mb.configJSON →
        dm.Manifest.Config.Digest = P.FromBytes mb.configJSON) := by
  have h1 : (mb.bs.Stat s ctx (P.FromBytes mb.configJSON)).1.2 = none := by rw [hstat]
  have h2 : (mb.bs.Stat s ctx (P.FromBytes mb.configJSON)).1.1 = d := by rw [hstat]
  rw [Build_of_stat_ok P mb ctx s h1, h2]
  refine ⟨by simp [BuildResult.ret, Puts, Call.isPut], by simp [BuildResult.ret], ?_⟩
  exact ⟨_, rfl, rfl, fun h => h⟩

/-- C2 on the in-memory store that already holds the configuration blob. -/
theorem build_reuses_stat_descriptor_witness :
    (toyBuilder.bs.Stat holdingStore () (toyPkg.FromBytes toyBuilder.configJSON)).1
      = (octet "toy:oeo" 3, none) ∧
    (Puts (Build toyPkg toyBuilder () holdingStore).calls = [] ∧
      (Build toyPkg toyBuilder () holdingStore).calls
        = [Call.Stat () (toyPkg.FromBytes toyBuilder.configJSON)] ∧
      ∃ dm, (Build toyPkg toyBuilder () holdingStore).manifest = some dm ∧
        dm.Manifest.Config = octet "toy:oeo" 3 ∧
        ((octet "toy:oeo" 3).Digest = toyPkg.FromBytes toyBuilder.configJSON →
          dm.Manifest.Config.Digest = toyPkg.FromBytes toyBuilder.configJSON)) :=
  ⟨by decide,
    build_reuses_stat_descriptor toyPkg toyBuilder () holdingStore (octet "toy:oeo" 3)
      (by decide)⟩

/-- C3, media-type override: when Stat returns ErrBlobUnknown and Put succeeds with a
descriptor d, whatever its media type, Build returns a manifest whose configuration
descriptor has MediaType MediaTypeConfig and the Digest, Size and Extra of d. -/
theorem build_overrides_put_media_type [Inhabited X] [Inhabited L] (P : Pkg X L)
    (mb : builder σ κ X L) (ctx : κ) (s : σ) (d : Descriptor X)
    (hstat : (mb.bs.Stat s ctx (P.FromBytes mb.configJSON)).1.2 = some Err.ErrBlobUnknown)
    (hput : (mb.bs.Put (mb.bs.Stat s ctx (P.FromBytes mb.configJSON)).2 ctx
      P.MediaTypeConfig mb.configJSON).1 = (d, none)) :
    ∃ dm, (Build P mb ctx s).manifest = some dm ∧
      dm.Manifest.Config.MediaType = P.MediaTypeConfig ∧
      dm.Manifest.Config.Digest = d.Digest ∧
      dm.Manifest.Config.Size = d.Size ∧
      dm.Manifest.Config.Extra = d.Extra := by
  have h1 : (mb.bs.Put (mb.bs.Stat s ctx (P.FromBytes mb.configJSON)).2 ctx
      P.MediaTypeConfig mb.configJSON).1.2 = none := by rw [hput]
  have h2 : (mb.bs.Put (mb.bs.Stat s ctx (P.FromBytes mb.configJSON)).2 ctx
      P.MediaTypeConfig mb.configJSON).1.1 = d := by rw [hput]
  rw [Build_of_put_ok P mb ctx s hstat h1, h2]
  exact ⟨_, rfl, rfl, rfl, rfl, rfl⟩

/-- C3 on the empty in-memory store, whose Put answers with the generic media type. -/
theorem build_overrides_put_media_type_witness :
    (toyBuilder.bs.Stat emptyStore () (toyPkg.FromBytes toyBuilder.configJSON)).1.2
      = some Err.ErrBlobUnknown ∧
    (toyBuilder.bs.Put
        (toyBuilder.bs.Stat emptyStore () (toyPkg.FromBytes toyBuilder.configJSON)).2 ()
        toyPkg.MediaTypeConfig toyBuilder.configJSON).1 = (octet "toy:oeo" 3, none) ∧
    ∃ dm, (Build toyPkg toyBuilder () emptyStore).manifest = some dm ∧
      dm.Manifest.Config.MediaType = toyPkg.MediaTypeConfig ∧
      dm.Manifest.Config.Digest = (octet "toy:oeo" 3).Digest ∧
      dm.Manifest.Config.Size = (octet "toy:oeo" 3).Size ∧
      dm.Manifest.Config.Extra = (octet "toy:oeo" 3).Extra :=
  ⟨by decide, by decide,
    build_overrides_put_media_type toyPkg toyBuilder () emptyStore (octet "toy:oeo" 3)
      (by decide) (by decide)⟩

/-- C4 as stated fails: a store whose Stat succeeds with a descriptor under another
digest than the one queried makes Build succeed with that digest in the configuration
descriptor, not the hash of the configuration bytes. -/
theorem config_digest_follows_store_counterexample :
    (Build toyPkg
        (NewManifestBuilder (scripted Unit (octet "sha512:0f" 3, none) (octet "" 0, none))
          [1, 2, 3] : builder Unit Unit Unit (List String)) () ()).err = none ∧
    ∃ dm, (Build toyPkg
        (NewManifestBuilder (scripted Unit (octet "sha512:0f" 3, none) (octet "" 0, none))
          [1, 2, 3] : builder Unit Unit Unit (List String)) () ()).manifest = some dm ∧
      dm.Manifest.Config.Digest = "sha512:0f" ∧
      toyPkg.FromBytes [1, 2, 3] = "toy:oeo" ∧
      dm.Manifest.Config.Digest ≠ toyPkg.FromBytes [1, 2, 3] := by
  refine ⟨by decide, _, rfl, ?_, ?_, ?_⟩ <;> decide

/-- C4 amended: when the store answers the Stat and the Put of this Build faithfully
(a successful Stat returns a descriptor carrying the queried digest, a successful Put
one carrying the hash of the bytes written), every Build without error returns a
manifest whose configuration digest is FromBytes of the bytes given to
NewManifestBuilder. -/
theorem config_digest_of_faithful_store [Inhabited X] [Inhabited L] (P : Pkg X L)
    (bs : BlobService σ κ X) (config : Bytes) (rs : List (Describable X L)) (ctx : κ)
    (s : σ)
    (hstat : (bs.Stat s ctx (P.FromBytes config)).1.2 = none →
      (bs.Stat s ctx (P.FromBytes config)).1.1.Digest = P.FromBytes config)
    (hput : (bs.Put (bs.Stat s ctx (P.FromBytes config)).2 ctx P.MediaTypeConfig
        config).1.2 = none →
      (bs.Put (bs.Stat s ctx (P.FromBytes config)).2 ctx P.MediaTypeConfig
        config).1.1.Digest = P.FromBytes config)
    (hok : (Build P (AppendReferences (NewManifestBuilder bs config) rs) ctx s).err = none) :
    ∃ dm, (Build P (AppendReferences (NewManifestBuilder bs config) rs) ctx s).manifest
        = some dm ∧
      dm.Manifest.Config.Digest = P.FromBytes config := by
  have hmb : ∃ mb : builder σ κ X L,
      mb = AppendReferences (NewManifestBuilder bs config) rs ∧ mb.bs = bs ∧
        mb.configJSON = config :=
    ⟨_, rfl, by rw [AppendReferences_eq]; rfl,
      by rw [AppendReferences_eq]; simp [NewManifestBuilder, copy_make]⟩
  obtain ⟨mb, hmbeq, hbs, hcfg⟩ := hmb
  rw [← hmbeq] at hok ⊢
  by_cases h1 : (mb.bs.Stat s ctx (P.FromBytes mb.configJSON)).1.2 = none
  · rw [Build_of_stat_ok P mb ctx s h1]
    refine ⟨_, rfl, ?_⟩
    rw [hbs, hcfg] at h1 ⊢
    exact hstat h1
  · by_cases h2 : (mb.bs.Stat s ctx (P.FromBytes mb.configJSON)).1.2 = some Err.ErrBlobUnknown
    · by_cases h3 : (mb.bs.Put (mb.bs.Stat s ctx (P.FromBytes mb.configJSON)).2 ctx
          P.MediaTypeConfig mb.configJSON).1.2 = none
      · rw [Build_of_put_ok P mb ctx s h2 h3]
        refine ⟨_, rfl, ?_⟩
        rw [hbs, hcfg] at h3 ⊢
        exact hput h3
      · obtain ⟨e, he⟩ := Option.ne_none_iff_exists'.mp h3
        rw [Build_of_put_err P mb ctx s e h2 he] at hok
        simp [BuildResult.ret] at hok
    · obtain ⟨e, he⟩ := Option.ne_none_iff_exists'.mp h1
      have hne : e ≠ Err.ErrBlobUnknown := fun hh => h2 (by rw [he, hh])
      rw [Build_of_stat_err P mb ctx s e he hne] at hok
      simp [BuildResult.ret] at hok

/-- C4 amended, on the publish path of the in-memory store with three references. -/
theorem config_digest_of_faithful_store_witness :
    (((memBlobs Unit toyDigest).Stat emptyStore () (toyPkg.FromBytes [1, 2, 3])).1.2 = none →
      ((memBlobs Unit toyDigest).Stat emptyStore () (toyPkg.FromBytes [1, 2, 3])).1.1.Digest
        = toyPkg.FromBytes [1, 2, 3]) ∧
    (((memBlobs Unit toyDigest).Put
        ((memBlobs Unit toyDigest).Stat emptyStore () (toyPkg.FromBytes [1, 2, 3])).2 ()
        toyPkg.MediaTypeConfig [1, 2, 3]).1.2 = none →
      ((memBlobs Unit toyDigest).Put
        ((memBlobs Unit toyDigest).Stat emptyStore () (toyPkg.FromBytes [1, 2, 3])).2 ()
        toyPkg.MediaTypeConfig [1, 2, 3]).1.1.Digest = toyPkg.FromBytes [1, 2, 3]) ∧
    (Build toyPkg (AppendReferences (NewManifestBuilder (memBlobs Unit toyDigest) [1, 2, 3])
        threeRefs) () emptyStore).err = none ∧
    ∃ dm, (Build toyPkg (AppendReferences (NewManifestBuilder (memBlobs Unit toyDigest)
        [1, 2, 3]) threeRefs) () emptyStore).manifest = some dm ∧
      dm.Manifest.Config.Digest = toyPkg.FromBytes [1, 2, 3] :=
  ⟨by decide, by decide, by decide,
    config_digest_of_faithful_store toyPkg (memBlobs Unit toyDigest) [1, 2, 3] threeRefs ()
      emptyStore (by decide) (by decide) (by decide)⟩

/-- C5, Stat error propagation: when Stat returns an error e other than
ErrBlobUnknown, Build returns no manifest and exactly e, and its only store call is the
Stat: Put is not invoked. -/
theorem build_propagates_stat_error [Inhabited X] [Inhabited L] (P : Pkg X L)
    (mb : builder σ κ X L) (ctx : κ) (s : σ) (e : Err)
    (hstat : (mb.bs.Stat s ctx (P.FromBytes mb.configJSON)).1.2 = some e)
    (hne : e ≠ Err.ErrBlobUnknown) :
    (Build P mb ctx s).manifest = none ∧
    (Build P mb ctx s).err = some e ∧
    Puts (Build P mb ctx s).calls = [] ∧
    (Build P mb ctx s).calls = [Call.Stat ctx (P.FromBytes mb.configJSON)] := by
  rw [Build_of_stat_err P mb ctx s e hstat hne]
  simp [BuildResult.ret, Puts, Call.isPut]

/-- C5 on a store whose Stat fails with a backend error. -/
theorem build_propagates_stat_error_witness :
    ((downBuilder.bs.Stat () () (toyPkg.FromBytes downBuilder.configJSON)).1.2
      = some (Err.other "backend unavailable")) ∧
    Err.other "backend unavailable" ≠ Err.ErrBlobUnknown ∧
    (Build toyPkg downBuilder () ()).manifest = none ∧
    (Build toyPkg downBuilder () ()).err = some (Err.other "backend unavailable") ∧
    Puts (Build toyPkg downBuilder () ()).calls = [] ∧
    (Build toyPkg downBuilder () ()).calls
      = [Call.Stat () (toyPkg.FromBytes downBuilder.configJSON)] :=
  ⟨by decide, by decide,
    build_propagates_stat_error toyPkg downBuilder () () (Err.other "backend unavailable")
      (by decide) (by decide)⟩

/-- C6, Put error propagation: when Stat returns ErrBlobUnknown and Put returns an
error e, Build returns no manifest and exactly e, and Put was invoked exactly once: the
store calls are the Stat and then the one Put. -/
theorem build_propagates_put_error [Inhabited X] [Inhabited L] (P : Pkg X L)
    (mb : builder σ κ X L) (ctx : κ) (s : σ) (e : Err)
    (hstat : (mb.bs.Stat s ctx (P.FromBytes mb.configJSON)).1.2 = some Err.ErrBlobUnknown)
    (hput : (mb.bs.Put (mb.bs.Stat s ctx (P.FromBytes mb.configJSON)).2 ctx
      P.MediaTypeConfig mb.configJSON).1.2 = some e) :
    (Build P mb ctx s).manifest = none ∧
    (Build P mb ctx s).err = some e ∧
    (Puts (Build P mb ctx s).calls).length = 1 ∧
    (Build P mb ctx s).calls = [Call.Stat ctx (P.FromBytes mb.configJSON),
      Call.Put ctx P.MediaTypeConfig mb.configJSON] := by
  rw [Build_of_put_err P mb ctx s e hstat hput]
  simp [BuildResult.ret, Puts, Call.isPut]

/-- C6 on the in-memory store without room for the three configuration bytes. -/
theorem build_propagates_put_error_witness :
    (toyBuilder.bs.Stat fullStore () (toyPkg.FromBytes toyBuilder.configJSON)).1.2
      = some Err.ErrBlobUnknown ∧
    (toyBuilder.bs.Put
        (toyBuilder.bs.Stat fullStore () (toyPkg.FromBytes toyBuilder.configJSON)).2 ()
        toyPkg.MediaTypeConfig toyBuilder.configJSON).1.2
      = some (Err.other "no space left") ∧
    (Build toyPkg toyBuilder () fullStore).manifest = none ∧
    (Build toyPkg toyBuilder () fullStore).err = some (Err.other "no space left") ∧
    (Puts (Build toyPkg toyBuilder () fullStore).calls).length = 1 ∧
    (Build toyPkg toyBuilder () fullStore).calls
      = [Call.Stat () (toyPkg.FromBytes toyBuilder.configJSON),
        Call.Put () toyPkg.MediaTypeConfig toyBuilder.configJSON] :=
  ⟨by decide, by decide,
    build_propagates_put_error toyPkg toyBuilder () fullStore (Err.other "no space left")
      (by decide) (by decide)⟩

/-- C7 as stated fails, in three ways, each on a store that meets the contract as the
claim words it. On the in-memory store without room for the configuration bytes the
first Build invokes Put once and fails, and the next Build invokes Put again. On the
store whose Put reports a fixed digest both Builds succeed, the second without a Put, and
their configuration digests differ. On the store whose Put writes into the slice it is
handed, the first Build succeeds and the next Build invokes Put again. -/
theorem publish_once_counterexample :
    (StoreContract toyBuilder.bs toyPkg.FromBytes ∧
      (toyBuilder.bs.Stat fullStore () (toyPkg.FromBytes toyBuilder.configJSON)).1.2
        = some Err.ErrBlobUnknown ∧
      (Puts (Build toyPkg toyBuilder () fullStore).calls).length = 1 ∧
      (Build toyPkg toyBuilder () fullStore).manifest = none ∧
      Puts (Build toyPkg (Build toyPkg toyBuilder () fullStore).mb ()
        (Build toyPkg toyBuilder () fullStore).store).calls ≠ []) ∧
    (PublishContract lyingBuilder.bs toyPkg.FromBytes ∧
      (lyingBuilder.bs.Stat emptyStore () (toyPkg.FromBytes lyingBuilder.configJSON)).1.2
        = some Err.ErrBlobUnknown ∧
      (Build toyPkg lyingBuilder () emptyStore).err = none ∧
      Puts (Build toyPkg (Build toyPkg lyingBuilder () emptyStore).mb ()
        (Build toyPkg lyingBuilder () emptyStore).store).calls = [] ∧
      ∃ dm1 dm2, (Build toyPkg lyingBuilder () emptyStore).manifest = some dm1 ∧
        (Build toyPkg (Build toyPkg lyingBuilder () emptyStore).mb ()
          (Build toyPkg lyingBuilder () emptyStore).store).manifest = some dm2 ∧
        dm1.Manifest.Config.Digest = "sha512:0f" ∧
        dm2.Manifest.Config.Digest = "toy:oeo" ∧
        dm1.Manifest.Config.Digest ≠ dm2.Manifest.Config.Digest) ∧
    (StoreContract scribbledBuilder.bs toyPkg.FromBytes ∧
      (scribbledBuilder.bs.Stat emptyStore ()
        (toyPkg.FromBytes scribbledBuilder.configJSON)).1.2 = some Err.ErrBlobUnknown ∧
      (Build toyPkg scribbledBuilder () emptyStore).err = none ∧
      (Build toyPkg scribbledBuilder () emptyStore).mb.configJSON = [8, 2, 3] ∧
      Puts (Build toyPkg (Build toyPkg scribbledBuilder () emptyStore).mb ()
        (Build toyPkg scribbledBuilder () emptyStore).store).calls ≠ []) := by
  refine ⟨⟨memBlobs_contract Unit toyDigest, by decide, by decide, by decide, by decide⟩,
    ⟨lyingBlobs_contract Unit toyDigest, by decide, by decide, by decide, _, _, rfl, rfl,
      by decide, by decide, by decide⟩,
    ⟨scribblingBlobs_contract Unit toyDigest, by decide, by decide, by decide, by decide⟩⟩

/-- C7 amended: when Stat reports the configuration blob unknown, the first Build
invokes Put exactly once. When moreover the store meets its contract, with a successful
Put returning a descriptor that carries the digest of the bytes, that Put left the bytes
of the builder as they were, and the first Build returned no error, then every later
Build on the same builder (references may have been appended in between, nothing else
touched the store) invokes Put zero times and returns a manifest whose configuration
digest equals that of the first Build. -/
theorem publish_once [Inhabited X] [Inhabited L] (P : Pkg X L) (mb : builder σ κ X L)
    (ctx : κ) (s : σ) (rs : List (Describable X L)) (cs : List κ)
    (hnew : (mb.bs.Stat s ctx (P.FromBytes mb.configJSON)).1.2 = some Err.ErrBlobUnknown) :
    (Puts (Build P mb ctx s).calls).length = 1 ∧
    (StoreContract mb.bs P.FromBytes →
      (Build P mb ctx s).mb.configJSON = mb.configJSON →
      (Build P mb ctx s).err = none →
      ∃ dm1, (Build P mb ctx s).manifest = some dm1 ∧
        ∀ o ∈ Builds P (AppendReferences (Build P mb ctx s).mb rs) cs
            (Build P mb ctx s).store,
          Puts o.calls = [] ∧
          ∃ dm, o.manifest = some dm ∧
            dm.Manifest.Config.Digest = dm1.Manifest.Config.Digest) := by
  constructor
  · rcases Build_calls P mb ctx s with ⟨h, _⟩ | ⟨_, hcalls⟩
    · exact absurd hnew h
    · rw [hcalls]; rfl
  · intro hc hkeep hok
    by_cases h3 : (mb.bs.Put (mb.bs.Stat s ctx (P.FromBytes mb.configJSON)).2 ctx
        P.MediaTypeConfig mb.configJSON).1.2 = none
    · have hb := Build_of_put_ok P mb ctx s hnew h3
      have hst : Stored mb.bs (Build P mb ctx s).store (P.FromBytes mb.configJSON) := by
        rw [hb]
        exact hc.put_stores _ ctx P.MediaTypeConfig mb.configJSON h3
      have hdg := hc.put_digest _ ctx P.MediaTypeConfig mb.configJSON h3
      have hmb : ∃ mb2 : builder σ κ X L,
          mb2 = AppendReferences (Build P mb ctx s).mb rs ∧ mb2.bs = mb.bs ∧
            mb2.configJSON = mb.configJSON :=
        ⟨_, rfl, by rw [AppendReferences_eq]; exact Build_mb_bs P mb ctx s,
          by rw [AppendReferences_eq]; exact hkeep⟩
      obtain ⟨mb2, hmb2, hbs, hcfg⟩ := hmb
      rw [← hmb2]
      have hc2 : StoreContract mb2.bs P.FromBytes := by rw [hbs]; exact hc
      have hst2 : Stored mb2.bs (Build P mb ctx s).store (P.FromBytes mb2.configJSON) := by
        rw [hbs, hcfg]; exact hst
      have hall := Builds_of_stored P mb2 hc2 cs _ hst2
      rw [hcfg] at hall
      have hm : ∃ dm1, (Build P mb ctx s).manifest = some dm1 ∧
          dm1.Manifest.Config.Digest = P.FromBytes mb.configJSON := by
        rw [hb]
        exact ⟨_, rfl, hdg⟩
      obtain ⟨dm1, hdm1, hd1⟩ := hm
      refine ⟨dm1, hdm1, ?_⟩
      intro o ho
      obtain ⟨hp, dm, hdm, hd⟩ := hall o ho
      exact ⟨hp, dm, hdm, by rw [hd, hd1]⟩
    · obtain ⟨e, he⟩ := Option.ne_none_iff_exists'.mp h3
      rw [Build_of_put_err P mb ctx s e hnew he] at hok
      simp [BuildResult.ret] at hok

/-- C7 amended, on the empty in-memory store: a first Build, three references, two
more Builds. -/
theorem publish_once_witness :
    (toyBuilder.bs.Stat emptyStore () (toyPkg.FromBytes toyBuilder.configJSON)).1.2
      = some Err.ErrBlobUnknown ∧
    StoreContract toyBuilder.bs toyPkg.FromBytes ∧
    (Build toyPkg toyBuilder () emptyStore).mb.configJSON = toyBuilder.configJSON ∧
    (Build toyPkg toyBuilder () emptyStore).err = none ∧
    (Puts (Build toyPkg toyBuilder () emptyStore).calls).length = 1 ∧
    ∃ dm1, (Build toyPkg toyBuilder () emptyStore).manifest = some dm1 ∧
      ∀ o ∈ Builds toyPkg (AppendReferences (Build toyPkg toyBuilder () emptyStore).mb
          threeRefs) [(), ()] (Build toyPkg toyBuilder () emptyStore).store,
        Puts o.calls = [] ∧
        ∃ dm, o.manifest = some dm ∧
          dm.Manifest.Config.Digest = dm1.Manifest.Config.Digest :=
  ⟨by decide, memBlobs_contract Unit toyDigest, by decide, by decide,
    (publish_once toyPkg toyBuilder () emptyStore threeRefs [(), ()] (by decide)).1,
    (publish_once toyPkg toyBuilder () emptyStore threeRefs [(), ()] (by decide)).2
      (memBlobs_contract Unit toyDigest) (by decide) (by decide)⟩

/-- C8 at its failing input: on the empty in-memory store, which meets its contract
and describes blobs with the generic media type, two Builds of one builder with no
append in between both succeed and agree on version tag, layers, configuration digest
and size, but the first manifest carries MediaTypeConfig and the second the generic
media type. -/
theorem builds_differ_in_config_media_type :
    StoreContract toyBuilder.bs toyPkg.FromBytes ∧
    (Build toyPkg toyBuilder () emptyStore).err = none ∧
    (Build toyPkg (Build toyPkg toyBuilder () emptyStore).mb ()
      (Build toyPkg toyBuilder () emptyStore).store).err = none ∧
    ∃ dm1 dm2, (Build toyPkg toyBuilder () emptyStore).manifest = some dm1 ∧
      (Build toyPkg (Build toyPkg toyBuilder () emptyStore).mb ()
        (Build toyPkg toyBuilder () emptyStore).store).manifest = some dm2 ∧
      dm1.Manifest.Versioned = dm2.Manifest.Versioned ∧
      dm1.Manifest.Layers = dm2.Manifest.Layers ∧
      dm1.Manifest.Config.Digest = dm2.Manifest.Config.Digest ∧
      dm1.Manifest.Config.Size = dm2.Manifest.Config.Size ∧
      dm1.Manifest.Config.MediaType = "application/vnd.docker.container.image.v1+json" ∧
      dm2.Manifest.Config.MediaType = "application/octet-stream" ∧
      dm1.Manifest.Config.MediaType ≠ dm2.Manifest.Config.MediaType := by
  refine ⟨memBlobs_contract Unit toyDigest, by decide, by decide, _, _, rfl, rfl, ?_⟩
  decide

/-- C9 as stated fails: for an enriched reference whose LayerDescriptor() embeds
another descriptor than its Descriptor() returns, References() yields the embedded one,
not the value of Descriptor(). -/
theorem references_of_enriched_counterexample :
    (References (AppendReferences toyBuilder [mismatchedRef])).1 = [layerDesc "toy:y" 2] ∧
    mismatchedRef.Descriptor = layerDesc "toy:x" 1 ∧
    (References (AppendReferences toyBuilder [mismatchedRef])).1
      ≠ [mismatchedRef.Descriptor] := by
  refine ⟨?_, rfl, ?_⟩ <;> decide

/-- C9 amended: after the references rs appended to a fresh builder, References()
returns a sequence of the length of rs whose i-th element is, in append order, the
value of Descriptor() for a plain reference and the descriptor embedded in
LayerDescriptor() for an enriched one; the call leaves the builder as it was. -/
theorem references_in_append_order [Inhabited X] [Inhabited L] (bs : BlobService σ κ X)
    (config : Bytes) (rs : List (Describable X L)) :
    (References (AppendReferences (NewManifestBuilder bs config) rs)).1.length = rs.length ∧
    (∀ i, (References (AppendReferences (NewManifestBuilder bs config) rs)).1.get? i =
      (rs.get? i).map (fun r =>
        match r.asLayerDescribable with
        | some ld => ld.LayerDescriptor.Descriptor
        | none => r.Descriptor)) ∧
    (References (AppendReferences (NewManifestBuilder bs config) rs)).2 =
      AppendReferences (NewManifestBuilder bs config) rs := by
  have hn : ∀ r : Describable X L, (normalize r).Descriptor =
      (match r.asLayerDescribable with
        | some ld => ld.LayerDescriptor.Descriptor
        | none => r.Descriptor) := by
    intro r
    unfold normalize
    cases r.asLayerDescribable <;> rfl
  rw [References_eq, AppendReferences_eq]
  refine ⟨by simp [NewManifestBuilder], fun i => ?_, rfl⟩
  simp only [NewManifestBuilder, List.nil_append, List.map_map, List.get?_eq_getElem?,
    List.getElem?_map]
  cases rs[i]? with
  | none => rfl
  | some r => simp [hn]

/-- C10, enrichment preference: AppendReference of an enriched reference stores its
LayerDescriptor() verbatim, whatever its Descriptor() is; of a plain reference it stores
the Descriptor() wrapped with the zero value for the extra fields; this holds of every
builder and store, with or without a later Build. And after any further appends, a
Build that returns no error returns a manifest with the stored value at the position of
the append. -/
theorem append_prefers_enriched [Inhabited X] [Inhabited L] (mb : builder σ κ X L)
    (d : Describable X L) :
    (∀ desc ld, (AppendReference mb
        { Descriptor := desc, asLayerDescribable := some ld }).2.layers
      = mb.layers ++ [ld.LayerDescriptor]) ∧
    (∀ desc, (AppendReference mb
        ({ Descriptor := desc, asLayerDescribable := none } : Describable X L)).2.layers
      = mb.layers ++ [{ Descriptor := desc, Extra := default }]) ∧
    (AppendReference mb d).2.layers.get? mb.layers.length =
      some (match d.asLayerDescribable with
        | some ld => ld.LayerDescriptor
        | none => { Descriptor := d.Descriptor, Extra := default }) ∧
    ∀ (P : Pkg X L) (rs : List (Describable X L)) (ctx : κ) (s : σ),
      (Build P (AppendReferences (AppendReference mb d).2 rs) ctx s).err = none →
      ∃ dm, (Build P (AppendReferences (AppendReference mb d).2 rs) ctx s).manifest
          = some dm ∧
        dm.Manifest.Layers.get? mb.layers.length =
          (AppendReference mb d).2.layers.get? mb.layers.length := by
  have hn : normalize d =
      (match d.asLayerDescribable with
        | some ld => ld.LayerDescriptor
        | none => { Descriptor := d.Descriptor, Extra := default }) := rfl
  refine ⟨fun _ _ => rfl, fun _ => rfl, ?_, ?_⟩
  · rw [AppendReference_eq, ← hn]
    simp
  · intro P rs ctx s hok
    obtain ⟨dm, hdm⟩ := Build_manifest_of_ok P _ ctx s hok
    refine ⟨dm, hdm, ?_⟩
    rw [Build_manifest_layers P _ ctx s dm hdm, AppendReferences_eq, AppendReference_eq]
    simp only [List.get?_eq_getElem?, List.append_assoc, List.singleton_append]
    rw [List.getElem?_append_right (le_refl _), List.getElem?_append_right (le_refl _)]
    simp

/-- C10 with an enriched reference appended between two plain ones, followed by a
Build on the empty in-memory store; and the same append on a builder whose store is
down, where no Build succeeds. -/
theorem append_prefers_enriched_witness :
    (Build toyPkg (AppendReferences
        (AppendReference (AppendReferences toyBuilder [plainRef "toy:a" 10]) mismatchedRef).2
        [plainRef "toy:c" 30]) () emptyStore).err = none ∧
    (AppendReference (AppendReferences toyBuilder [plainRef "toy:a" 10])
        mismatchedRef).2.layers.get?
        (AppendReferences toyBuilder [plainRef "toy:a" 10]).layers.length =
      some (match mismatchedRef.asLayerDescribable with
        | some ld => ld.LayerDescriptor
        | none => { Descriptor := mismatchedRef.Descriptor, Extra := default }) ∧
    (∃ dm, (Build toyPkg (AppendReferences
        (AppendReference (AppendReferences toyBuilder [plainRef "toy:a" 10]) mismatchedRef).2
        [plainRef "toy:c" 30]) () emptyStore).manifest = some dm ∧
      dm.Manifest.Layers.get? (AppendReferences toyBuilder [plainRef "toy:a" 10]).layers.length =
        (AppendReference (AppendReferences toyBuilder [plainRef "toy:a" 10])
          mismatchedRef).2.layers.get?
          (AppendReferences toyBuilder [plainRef "toy:a" 10]).layers.length) ∧
    (AppendReference downBuilder mismatchedRef).2.layers.get? downBuilder.layers.length =
      some (match mismatchedRef.asLayerDescribable with
        | some ld => ld.LayerDescriptor
        | none => { Descriptor := mismatchedRef.Descriptor, Extra := default }) :=
  ⟨by decide,
    (append_prefers_enriched (AppendReferences toyBuilder [plainRef "toy:a" 10])
      mismatchedRef).2.2.1,
    (append_prefers_enriched (AppendReferences toyBuilder [plainRef "toy:a" 10])
      mismatchedRef).2.2.2 toyPkg [plainRef "toy:c" 30] () emptyStore (by decide),
    (append_prefers_enriched downBuilder mismatchedRef).2.2.1⟩

/-- C11, append is total and grow-only: AppendReference returns no error; the new
layer list is the old one followed by exactly one element, the normalized descriptor of
the reference, so it is one longer and its first elements are the old list, each at its
place; the configuration bytes and the store handle are unchanged. -/
theorem append_reference_grows [Inhabited L] (mb : builder σ κ X L) (d : Describable X L) :
    (AppendReference mb d).1 = none ∧
    (AppendReference mb d).2.layers = mb.layers ++
      [match d.asLayerDescribable with
        | some ld => ld.LayerDescriptor
        | none => { Descriptor := d.Descriptor, Extra := default }] ∧
    (AppendReference mb d).2.layers.length = mb.layers.length + 1 ∧
    (AppendReference mb d).2.layers.take mb.layers.length = mb.layers ∧
    (∀ i, i < mb.layers.length →
      (AppendReference mb d).2.layers.get? i = mb.layers.get? i) ∧
    (AppendReference mb d).2.configJSON = mb.configJSON ∧
    (AppendReference mb d).2.bs = mb.bs := by
  have hn : normalize d =
      (match d.asLayerDescribable with
        | some ld => ld.LayerDescriptor
        | none => { Descriptor := d.Descriptor, Extra := default }) := rfl
  rw [AppendReference_eq, ← hn]
  refine ⟨rfl, rfl, by simp, by simp, ?_, rfl, rfl⟩
  intro i hi
  simp only [List.get?_eq_getElem?]
  exact List.getElem?_append_left hi

/-- C12 as stated fails: Build hands the slice mb.configJSON itself to Put, and on a
store whose Put writes into the slice it is handed, the configuration bytes of the
builder after Build are not those before it. -/
theorem build_rewrites_config_counterexample :
    scribbledBuilder.configJSON = [1, 2, 3] ∧
    (Build toyPkg scribbledBuilder () emptyStore).err = none ∧
    (Build toyPkg scribbledBuilder () emptyStore).mb.configJSON = [8, 2, 3] ∧
    (Build toyPkg scribbledBuilder () emptyStore).mb.configJSON
      ≠ scribbledBuilder.configJSON := by
  refine ⟨?_, ?_, ?_, ?_⟩ <;> decide

/-- C12 amended: whatever the store answers, the layer list and the store handle of
the builder after Build are those before it, References() returns the same sequence
before and after, and a later Build on the builder, on any store state, returns a
manifest with the same layers. The configuration bytes keep their length; they keep
their contents when Build makes no Put (Stat did not return ErrBlobUnknown), and when
the Put it makes writes nothing into the slice it is handed: then the builder after
Build is the builder before it. After a Put the bytes are those the store left in the
slice. -/
theorem build_leaves_builder [Inhabited X] [Inhabited L] (P : Pkg X L)
    (mb : builder σ κ X L) (ctx : κ) (s : σ) :
    (Build P mb ctx s).mb.layers = mb.layers ∧
    (Build P mb ctx s).mb.bs = mb.bs ∧
    (References (Build P mb ctx s).mb).1 = (References mb).1 ∧
    (Build P mb ctx s).mb.configJSON.length = mb.configJSON.length ∧
    ((mb.bs.Stat s ctx (P.FromBytes mb.configJSON)).1.2 ≠ some Err.ErrBlobUnknown →
      (Build P mb ctx s).mb = mb) ∧
    (mb.bs.PutWrites (mb.bs.Stat s ctx (P.FromBytes mb.configJSON)).2 ctx
        P.MediaTypeConfig mb.configJSON = [] →
      (Build P mb ctx s).mb = mb) ∧
    ((mb.bs.Stat s ctx (P.FromBytes mb.configJSON)).1.2 = some Err.ErrBlobUnknown →
      (Build P mb ctx s).mb.configJSON = writeThrough mb.configJSON
        (mb.bs.PutWrites (mb.bs.Stat s ctx (P.FromBytes mb.configJSON)).2 ctx
          P.MediaTypeConfig mb.configJSON)) ∧
    ∀ ctx2 s2 dm, (Build P (Build P mb ctx s).mb ctx2 s2).manifest = some dm →
      dm.Manifest.Layers = mb.layers := by
  have hcfg : (mb.bs.Stat s ctx (P.FromBytes mb.configJSON)).1.2 = some Err.ErrBlobUnknown →
      (Build P mb ctx s).mb.configJSON = writeThrough mb.configJSON
        (mb.bs.PutWrites (mb.bs.Stat s ctx (P.FromBytes mb.configJSON)).2 ctx
          P.MediaTypeConfig mb.configJSON) :=
    Build_mb_configJSON_of_unknown P mb ctx s
  have hsame : (mb.bs.Stat s ctx (P.FromBytes mb.configJSON)).1.2 ≠ some Err.ErrBlobUnknown →
      (Build P mb ctx s).mb = mb := Build_mb_of_not_unknown P mb ctx s
  have heq : ∀ b : builder σ κ X L, b.bs = mb.bs → b.layers = mb.layers →
      b.configJSON = mb.configJSON → b = mb := by
    intro b h1 h2 h3
    cases b
    cases mb
    simp_all
  refine ⟨Build_mb_layers P mb ctx s, Build_mb_bs P mb ctx s, ?_, ?_, hsame, ?_, hcfg, ?_⟩
  · rw [References_eq, References_eq, Build_mb_layers]
  · by_cases h : (mb.bs.Stat s ctx (P.FromBytes mb.configJSON)).1.2 = some Err.ErrBlobUnknown
    · rw [hcfg h, writeThrough_length]
    · rw [hsame h]
  · intro hw
    by_cases h : (mb.bs.Stat s ctx (P.FromBytes mb.configJSON)).1.2 = some Err.ErrBlobUnknown
    · apply heq _ (Build_mb_bs P mb ctx s) (Build_mb_layers P mb ctx s)
      rw [hcfg h, hw]
      rfl
    · exact hsame h
  · intro ctx2 s2 dm h
    rw [Build_manifest_layers P _ ctx2 s2 dm h, Build_mb_layers]

/-- C13, isolation: NewManifestBuilder stores the configuration bytes in a backing
array of its own, with the length and contents of the argument; so after any writes
buf[i] = x to the caller's buffer, the builder still holds the bytes of construction
time, the first store call of a later Build is the Stat of their digest, and a Put, if
Build makes one, is given those bytes. -/
theorem config_copy_is_private [Inhabited X] [Inhabited L] (P : Pkg X L)
    (bs : BlobService σ κ X) (h : Heap) (caller : Nat) (ws : List (Nat × Fin 256))
    (ctx : κ) (s : σ) (hvalid : caller < h.arrays.length) :
    (NewManifestBuilderAt bs h caller : Heap × builderAt σ κ X L).2.configJSON ≠ caller ∧
    ((NewManifestBuilderAt bs h caller : Heap × builderAt σ κ X L).2.read
        (NewManifestBuilderAt bs h caller : Heap × builderAt σ κ X L).1).configJSON
      = h.load caller ∧
    ((NewManifestBuilderAt bs h caller : Heap × builderAt σ κ X L).2.read
        (NewManifestBuilderAt bs h caller : Heap × builderAt σ κ X L).1).configJSON.length
      = (h.load caller).length ∧
    ((NewManifestBuilderAt bs h caller : Heap × builderAt σ κ X L).2.read
        ((NewManifestBuilderAt bs h caller : Heap × builderAt σ κ X L).1.setBytes caller
          ws)).configJSON
      = h.load caller ∧
    (Build P ((NewManifestBuilderAt bs h caller : Heap × builderAt σ κ X L).2.read
        ((NewManifestBuilderAt bs h caller : Heap × builderAt σ κ X L).1.setBytes caller ws))
        ctx s).calls.head? = some (Call.Stat ctx (P.FromBytes (h.load caller))) ∧
    (Puts (Build P ((NewManifestBuilderAt bs h caller : Heap × builderAt σ κ X L).2.read
        ((NewManifestBuilderAt bs h caller : Heap × builderAt σ κ X L).1.setBytes caller ws))
        ctx s).calls = [] ∨
      Puts (Build P ((NewManifestBuilderAt bs h caller : Heap × builderAt σ κ X L).2.read
        ((NewManifestBuilderAt bs h caller : Heap × builderAt σ κ X L).1.setBytes caller ws))
        ctx s).calls = [Call.Put ctx P.MediaTypeConfig (h.load caller)]) := by
  obtain ⟨haddr, hload⟩ :=
    (NewManifestBuilderAt_load bs h caller hvalid :
      (NewManifestBuilderAt bs h caller : Heap × builderAt σ κ X L).2.configJSON
          = h.arrays.length ∧ _)
  have hne : caller ≠ h.arrays.length := Nat.ne_of_lt hvalid
  have hkeep : ((NewManifestBuilderAt bs h caller : Heap × builderAt σ κ X L).2.read
      ((NewManifestBuilderAt bs h caller : Heap × builderAt σ κ X L).1.setBytes caller
        ws)).configJSON = h.load caller := by
    simp only [builderAt.read]
    rw [haddr, Heap.load_setBytes_ne caller _ hne ws, hload]
  have hnow : ((NewManifestBuilderAt bs h caller : Heap × builderAt σ κ X L).2.read
      (NewManifestBuilderAt bs h caller : Heap × builderAt σ κ X L).1).configJSON
        = h.load caller := by
    simp only [builderAt.read]
    rw [haddr, hload]
  refine ⟨by rw [haddr]; exact hne.symm, hnow, by rw [hnow], hkeep, ?_, ?_⟩
  · rcases Build_calls P _ ctx s with ⟨_, hcalls⟩ | ⟨_, hcalls⟩ <;>
      rw [hcalls, hkeep] <;> rfl
  · rcases Build_calls P _ ctx s with ⟨_, hcalls⟩ | ⟨_, hcalls⟩
    · left; rw [hcalls]; rfl
    · right; rw [hcalls, hkeep]; rfl

/-- C13 on a caller buffer 1, 2, 3 that is overwritten at two places after
construction, with a Build on the empty in-memory store. -/
theorem config_copy_is_private_witness :
    0 < callerHeap.arrays.length ∧
    (copiedBuilder.2.configJSON ≠ 0 ∧
    (copiedBuilder.2.read copiedBuilder.1).configJSON = callerHeap.load 0 ∧
    (copiedBuilder.2.read copiedBuilder.1).configJSON.length = (callerHeap.load 0).length ∧
    (copiedBuilder.2.read (copiedBuilder.1.setBytes 0 [(0, 9), (2, 7)])).configJSON
      = callerHeap.load 0 ∧
    (Build toyPkg (copiedBuilder.2.read (copiedBuilder.1.setBytes 0 [(0, 9), (2, 7)])) ()
        emptyStore).calls.head? = some (Call.Stat () (toyPkg.FromBytes (callerHeap.load 0))) ∧
    (Puts (Build toyPkg (copiedBuilder.2.read (copiedBuilder.1.setBytes 0 [(0, 9), (2, 7)]))
        () emptyStore).calls = [] ∨
      Puts (Build toyPkg (copiedBuilder.2.read (copiedBuilder.1.setBytes 0 [(0, 9), (2, 7)]))
        () emptyStore).calls = [Call.Put () toyPkg.MediaTypeConfig (callerHeap.load 0)])) :=
  ⟨by decide,
    config_copy_is_private toyPkg (memBlobs Unit toyDigest) callerHeap 0 [(0, 9), (2, 7)] ()
      emptyStore (by decide)⟩

/-- C15, store call protocol: in every Build the first store call is the Stat of
FromBytes of the configuration bytes of the builder, and it is the only Stat; there is at
most one Put; the calls are the Stat alone unless the Stat returned ErrBlobUnknown, and
then they are the Stat followed by one Put with MediaTypeConfig and the configuration
bytes of the builder; the list of calls holds nothing else. -/
theorem build_store_protocol [Inhabited X] [Inhabited L] (P : Pkg X L)
    (mb : builder σ κ X L) (ctx : κ) (s : σ) :
    (Build P mb ctx s).calls.head? = some (Call.Stat ctx (P.FromBytes mb.configJSON)) ∧
    (Build P mb ctx s).calls.filter (fun c => !c.isPut)
      = [Call.Stat ctx (P.FromBytes mb.configJSON)] ∧
    (Puts (Build P mb ctx s).calls).length ≤ 1 ∧
    (((mb.bs.Stat s ctx (P.FromBytes mb.configJSON)).1.2 ≠ some Err.ErrBlobUnknown ∧
        (Build P mb ctx s).calls = [Call.Stat ctx (P.FromBytes mb.configJSON)]) ∨
      ((mb.bs.Stat s ctx (P.FromBytes mb.configJSON)).1.2 = some Err.ErrBlobUnknown ∧
        (Build P mb ctx s).calls = [Call.Stat ctx (P.FromBytes mb.configJSON),
          Call.Put ctx P.MediaTypeConfig mb.configJSON])) := by
  rcases Build_calls P mb ctx s with ⟨h, hcalls⟩ | ⟨h, hcalls⟩
  · refine ⟨?_, ?_, ?_, Or.inl ⟨h, hcalls⟩⟩ <;> rw [hcalls] <;> simp [Puts, Call.isPut]
  · refine ⟨?_, ?_, ?_, Or.inr ⟨h, hcalls⟩⟩ <;> rw [hcalls] <;> simp [Puts, Call.isPut]

/-- C16 as stated fails: when Stat returns ErrBlobUnknown and Put fails with
ErrBlobUnknown too, Build returns no manifest and the error ErrBlobUnknown, which is not
an error other than ErrBlobUnknown. -/
theorem build_returns_put_unknown_counterexample :
    (unknownBuilder.bs.Stat () () (toyPkg.FromBytes unknownBuilder.configJSON)).1.2
      = some Err.ErrBlobUnknown ∧
    (unknownBuilder.bs.Put () () toyPkg.MediaTypeConfig unknownBuilder.configJSON).1.2
      = some Err.ErrBlobUnknown ∧
    (Build toyPkg unknownBuilder () ()).manifest = none ∧
    (Build toyPkg unknownBuilder () ()).err = some Err.ErrBlobUnknown ∧
    ¬ ∃ e, e ≠ Err.ErrBlobUnknown ∧ (Build toyPkg unknownBuilder () ()).err = some e := by
  refine ⟨by decide, by decide, by decide, by decide, ?_⟩
  rintro ⟨e, hne, he⟩
  have h : (Build toyPkg unknownBuilder () ()).err = some Err.ErrBlobUnknown := by decide
  rw [h] at he
  exact hne (Option.some.inj he).symm

/-- C16 amended: Build returns a manifest exactly when Stat succeeds, or Stat returns
ErrBlobUnknown and Put succeeds, and then its results are those of FromStruct on the
struct with Versioned SchemaVersion, the layers of the builder and the chosen
configuration descriptor (that of Stat, or that of Put with the media type overwritten);
in every other case it returns no manifest together with the error that stopped it: the
error of Stat when that is not ErrBlobUnknown, else the error of Put, whatever it is. It
never returns neither a manifest nor an error, and with a manifest the error is the one
of FromStruct, not one of the store. -/
theorem build_outcome [Inhabited X] [Inhabited L] (P : Pkg X L) (mb : builder σ κ X L)
    (ctx : κ) (s : σ) :
    ((Build P mb ctx s).manifest ≠ none ↔
      ((mb.bs.Stat s ctx (P.FromBytes mb.configJSON)).1.2 = none ∨
        ((mb.bs.Stat s ctx (P.FromBytes mb.configJSON)).1.2 = some Err.ErrBlobUnknown ∧
          (mb.bs.Put (mb.bs.Stat s ctx (P.FromBytes mb.configJSON)).2 ctx
            P.MediaTypeConfig mb.configJSON).1.2 = none))) ∧
    ((mb.bs.Stat s ctx (P.FromBytes mb.configJSON)).1.2 = none →
      ((Build P mb ctx s).manifest, (Build P mb ctx s).err) =
        FromStruct P
          { Versioned := P.SchemaVersion
            Config := (mb.bs.Stat s ctx (P.FromBytes mb.configJSON)).1.1
            Layers := mb.layers }) ∧
    ((mb.bs.Stat s ctx (P.FromBytes mb.configJSON)).1.2 = some Err.ErrBlobUnknown →
      (mb.bs.Put (mb.bs.Stat s ctx (P.FromBytes mb.configJSON)).2 ctx
        P.MediaTypeConfig mb.configJSON).1.2 = none →
      ((Build P mb ctx s).manifest, (Build P mb ctx s).err) =
        FromStruct P
          { Versioned := P.SchemaVersion
            Config :=
              { (mb.bs.Put (mb.bs.Stat s ctx (P.FromBytes mb.configJSON)).2 ctx
                  P.MediaTypeConfig mb.configJSON).1.1 with
                MediaType := P.MediaTypeConfig }
            Layers := mb.layers }) ∧
    (∀ e, (mb.bs.Stat s ctx (P.FromBytes mb.configJSON)).1.2 = some e →
      e ≠ Err.ErrBlobUnknown →
      (Build P mb ctx s).manifest = none ∧ (Build P mb ctx s).err = some e) ∧
    (∀ e, (mb.bs.Stat s ctx (P.FromBytes mb.configJSON)).1.2 = some Err.ErrBlobUnknown →
      (mb.bs.Put (mb.bs.Stat s ctx (P.FromBytes mb.configJSON)).2 ctx
        P.MediaTypeConfig mb.configJSON).1.2 = some e →
      (Build P mb ctx s).manifest = none ∧ (Build P mb ctx s).err = some e) ∧
    ¬ ((Build P mb ctx s).manifest = none ∧ (Build P mb ctx s).err = none) ∧
    (∀ dm, (Build P mb ctx s).manifest = some dm →
      (Build P mb ctx s).err = (P.MarshalIndent dm.Manifest).2) := by
  by_cases h1 : (mb.bs.Stat s ctx (P.FromBytes mb.configJSON)).1.2 = none
  · rw [Build_of_stat_ok P mb ctx s h1]
    simp [BuildResult.ret, FromStruct, h1]
  · by_cases h2 : (mb.bs.Stat s ctx (P.FromBytes mb.configJSON)).1.2 = some Err.ErrBlobUnknown
    · by_cases h3 : (mb.bs.Put (mb.bs.Stat s ctx (P.FromBytes mb.configJSON)).2 ctx
          P.MediaTypeConfig mb.configJSON).1.2 = none
      · rw [Build_of_put_ok P mb ctx s h2 h3]
        simp [BuildResult.ret, FromStruct, h2, h3]
      · obtain ⟨e, he⟩ := Option.ne_none_iff_exists'.mp h3
        rw [Build_of_put_err P mb ctx s e h2 he]
        simp [BuildResult.ret, h2, he]
    · obtain ⟨e, he⟩ := Option.ne_none_iff_exists'.mp h1
      have hne : e ≠ Err.ErrBlobUnknown := fun hh => h2 (by rw [he, hh])
      rw [Build_of_stat_err P mb ctx s e he hne]
      simp [BuildResult.ret, he, hne]

/-- C17, References agrees with Build: for a builder in any state to which the
references rs were appended, when Build returns no error, References() has the length of
the Layers of the manifest and its i-th element is the Descriptor embedded in the i-th
layer descriptor; for an appended enriched reference that is the descriptor inside its
LayerDescriptor(), for a plain one the result of Descriptor(). -/
theorem references_agree_with_build [Inhabited X] [Inhabited L] (P : Pkg X L)
    (mb : builder σ κ X L) (rs : List (Describable X L)) (ctx : κ) (s : σ)
    (hok : (Build P (AppendReferences mb rs) ctx s).err = none) :
    ∃ dm, (Build P (AppendReferences mb rs) ctx s).manifest = some dm ∧
      (References (AppendReferences mb rs)).1.length = dm.Manifest.Layers.length ∧
      (∀ i, (References (AppendReferences mb rs)).1.get? i =
        (dm.Manifest.Layers.get? i).map (fun ld => ld.Descriptor)) ∧
      (∀ i, i < rs.length →
        (References (AppendReferences mb rs)).1.get? (mb.layers.length + i) =
          (rs.get? i).map embeddedDescriptor) ∧
      (∀ desc ld, embeddedDescriptor
          ({ Descriptor := desc, asLayerDescribable := some ld } : Describable X L)
        = ld.LayerDescriptor.Descriptor) := by
  have hn : ∀ r : Describable X L, (normalize r).Descriptor = embeddedDescriptor r := by
    intro r
    unfold normalize embeddedDescriptor
    cases r.asLayerDescribable <;> rfl
  obtain ⟨dm, hdm⟩ := Build_manifest_of_ok P _ ctx s hok
  have hl := Build_manifest_layers P _ ctx s dm hdm
  refine ⟨dm, hdm, ?_, ?_, ?_, fun _ _ => rfl⟩
  · rw [References_eq, hl]; simp
  · intro i
    rw [References_eq, hl]; simp
  · intro i hi
    rw [References_eq, AppendReferences_eq]
    simp only [List.get?_eq_getElem?, List.map_append, List.map_map]
    rw [List.getElem?_append_right (by simp)]
    simp only [List.length_map, Nat.add_sub_cancel_left, List.getElem?_map]
    cases rs[i]? with
    | none => rfl
    | some r => simp [hn]

/-- C17 on a builder with one plain reference to which an enriched reference with
disagreeing methods and a plain one are appended, on the empty in-memory store. -/
theorem references_agree_with_build_witness :
    (Build toyPkg (AppendReferences (AppendReferences toyBuilder [plainRef "toy:a" 10])
        [mismatchedRef, plainRef "toy:c" 30]) () emptyStore).err = none ∧
    ∃ dm, (Build toyPkg (AppendReferences (AppendReferences toyBuilder [plainRef "toy:a" 10])
        [mismatchedRef, plainRef "toy:c" 30]) () emptyStore).manifest = some dm ∧
      (References (AppendReferences (AppendReferences toyBuilder [plainRef "toy:a" 10])
        [mismatchedRef, plainRef "toy:c" 30])).1.length = dm.Manifest.Layers.length ∧
      (∀ i, (References (AppendReferences (AppendReferences toyBuilder [plainRef "toy:a" 10])
          [mismatchedRef, plainRef "toy:c" 30])).1.get? i =
        (dm.Manifest.Layers.get? i).map (fun ld => ld.Descriptor)) ∧
      (∀ i, i < [mismatchedRef, plainRef "toy:c" 30].length →
        (References (AppendReferences (AppendReferences toyBuilder [plainRef "toy:a" 10])
          [mismatchedRef, plainRef "toy:c" 30])).1.get?
            ((AppendReferences toyBuilder [plainRef "toy:a" 10]).layers.length + i) =
          ([mismatchedRef, plainRef "toy:c" 30].get? i).map embeddedDescriptor) ∧
      (∀ desc ld, embeddedDescriptor
          ({ Descriptor := desc, asLayerDescribable := some ld } :
            Describable Unit (List String))
        = ld.LayerDescriptor.Descriptor) :=
  ⟨by decide,
    references_agree_with_build toyPkg (AppendReferences toyBuilder [plainRef "toy:a" 10])
      [mismatchedRef, plainRef "toy:c" 30] () emptyStore (by decide)⟩

/-- C18, monotonicity across finalizations: when Build returns no error, then the
references rs are appended, then Build returns no error again (on any store state), the
Layers of the first manifest are an initial segment of the Layers of the second, the
second has exactly as many more elements as rs has, and the same holds of the results of
References() before and after the appends. -/
theorem build_layers_extend [Inhabited X] [Inhabited L] (P : Pkg X L)
    (mb : builder σ κ X L) (ctx : κ) (s : σ) (rs : List (Describable X L)) (ctx2 : κ)
    (s2 : σ)
    (hok1 : (Build P mb ctx s).err = none)
    (hok2 : (Build P (AppendReferences (Build P mb ctx s).mb rs) ctx2 s2).err = none) :
    ∃ dm1 dm2, (Build P mb ctx s).manifest = some dm1 ∧
      (Build P (AppendReferences (Build P mb ctx s).mb rs) ctx2 s2).manifest = some dm2 ∧
      dm1.Manifest.Layers <+: dm2.Manifest.Layers ∧
      dm2.Manifest.Layers.length = dm1.Manifest.Layers.length + rs.length ∧
      (References (Build P mb ctx s).mb).1
        <+: (References (AppendReferences (Build P mb ctx s).mb rs)).1 ∧
      (References (AppendReferences (Build P mb ctx s).mb rs)).1.length
        = (References (Build P mb ctx s).mb).1.length + rs.length := by
  obtain ⟨dm1, hdm1⟩ := Build_manifest_of_ok P _ ctx s hok1
  obtain ⟨dm2, hdm2⟩ := Build_manifest_of_ok P _ ctx2 s2 hok2
  have hl1 := Build_manifest_layers P _ ctx s dm1 hdm1
  have hl2 := Build_manifest_layers P _ ctx2 s2 dm2 hdm2
  rw [AppendReferences_eq, Build_mb_layers] at hl2
  refine ⟨dm1, dm2, hdm1, hdm2, ?_, ?_, ?_, ?_⟩
  · rw [hl1, hl2]
    exact ⟨rs.map normalize, rfl⟩
  · rw [hl1, hl2]
    simp
  · rw [References_eq, References_eq, AppendReferences_eq]
    exact ⟨(rs.map normalize).map (fun ld => ld.Descriptor), by simp⟩
  · rw [References_eq, References_eq, AppendReferences_eq]
    simp

/-- C18 on the in-memory store: a Build that publishes, three references appended, and
a Build on the store as the first left it. -/
theorem build_layers_extend_witness :
    (Build toyPkg (AppendReferences toyBuilder [plainRef "toy:z" 5]) () emptyStore).err
      = none ∧
    (Build toyPkg (AppendReferences
        (Build toyPkg (AppendReferences toyBuilder [plainRef "toy:z" 5]) () emptyStore).mb
        threeRefs) ()
      (Build toyPkg (AppendReferences toyBuilder [plainRef "toy:z" 5]) () emptyStore).store).err
      = none ∧
    ∃ dm1 dm2,
      (Build toyPkg (AppendReferences toyBuilder [plainRef "toy:z" 5]) () emptyStore).manifest
        = some dm1 ∧
      (Build toyPkg (AppendReferences
          (Build toyPkg (AppendReferences toyBuilder [plainRef "toy:z" 5]) () emptyStore).mb
          threeRefs) ()
        (Build toyPkg (AppendReferences toyBuilder [plainRef "toy:z" 5]) ()
          emptyStore).store).manifest = some dm2 ∧
      dm1.Manifest.Layers <+: dm2.Manifest.Layers ∧
      dm2.Manifest.Layers.length = dm1.Manifest.Layers.length + threeRefs.length ∧
      (References
          (Build toyPkg (AppendReferences toyBuilder [plainRef "toy:z" 5]) () emptyStore).mb).1
        <+: (References (AppendReferences
          (Build toyPkg (AppendReferences toyBuilder [plainRef "toy:z" 5]) () emptyStore).mb
          threeRefs)).1 ∧
      (References (AppendReferences
          (Build toyPkg (AppendReferences toyBuilder [plainRef "toy:z" 5]) () emptyStore).mb
          threeRefs)).1.length
        = (References
          (Build toyPkg (AppendReferences toyBuilder [plainRef "toy:z" 5]) ()
            emptyStore).mb).1.length + threeRefs.length :=
  ⟨by decide, by decide,
    build_layers_extend toyPkg (AppendReferences toyBuilder [plainRef "toy:z" 5]) ()
      emptyStore threeRefs ()
      (Build toyPkg (AppendReferences toyBuilder [plainRef "toy:z" 5]) () emptyStore).store
      (by decide) (by decide)⟩

/-- C14 as stated fails: Build never inspects the context, it only hands it to the
store. With a context cancelled while the Stat is outstanding and a store that ignores
the context, Build returns no error and a manifest, a store result. -/
theorem build_ignores_cancellation_counterexample :
    (Build toyPkg ignoringBuilder ToyCtx.cancelledInStat emptyStore).err = none ∧
    (Build toyPkg ignoringBuilder ToyCtx.cancelledInStat emptyStore).manifest ≠ none ∧
    (Build toyPkg ignoringBuilder ToyCtx.cancelledInStat emptyStore).calls
      = [Call.Stat ToyCtx.cancelledInStat "toy:oeo",
        Call.Put ToyCtx.cancelledInStat toyPkg.MediaTypeConfig [1, 2, 3]] := by
  refine ⟨?_, ?_, ?_⟩ <;> decide

/-- C14 amended: for any context, when the store call that is outstanding returns an
error e on the cancellation (the Stat an error other than ErrBlobUnknown, or, after a
Stat that returned ErrBlobUnknown, the Put any error), Build returns e and no manifest,
and the layer list of the builder and the result of References() are unchanged. -/
theorem build_returns_store_cancellation [Inhabited X] [Inhabited L] (P : Pkg X L)
    (mb : builder σ κ X L) (ctx : κ) (s : σ) (e : Err)
    (hcancel :
      ((mb.bs.Stat s ctx (P.FromBytes mb.configJSON)).1.2 = some e ∧
        e ≠ Err.ErrBlobUnknown) ∨
      ((mb.bs.Stat s ctx (P.FromBytes mb.configJSON)).1.2 = some Err.ErrBlobUnknown ∧
        (mb.bs.Put (mb.bs.Stat s ctx (P.FromBytes mb.configJSON)).2 ctx
          P.MediaTypeConfig mb.configJSON).1.2 = some e)) :
    (Build P mb ctx s).manifest = none ∧
    (Build P mb ctx s).err = some e ∧
    (Build P mb ctx s).mb.layers = mb.layers ∧
    (References (Build P mb ctx s).mb).1 = (References mb).1 := by
  refine ⟨?_, ?_, Build_mb_layers P mb ctx s, ?_⟩
  · rcases hcancel with ⟨h, hne⟩ | ⟨h, hp⟩
    · rw [Build_of_stat_err P mb ctx s e h hne]; rfl
    · rw [Build_of_put_err P mb ctx s e h hp]; rfl
  · rcases hcancel with ⟨h, hne⟩ | ⟨h, hp⟩
    · rw [Build_of_stat_err P mb ctx s e h hne]; rfl
    · rw [Build_of_put_err P mb ctx s e h hp]; rfl
  · rw [References_eq, References_eq, Build_mb_layers]

/-- C14 amended, on the store that honours cancellation, with three references and a
context cancelled while the Put is outstanding. -/
theorem build_returns_store_cancellation_witness :
    ((((AppendReferences honouringBuilder threeRefs).bs.Stat emptyStore ToyCtx.cancelledInPut
          (toyPkg.FromBytes (AppendReferences honouringBuilder threeRefs).configJSON)).1.2
        = some Canceled ∧ Canceled ≠ Err.ErrBlobUnknown) ∨
      (((AppendReferences honouringBuilder threeRefs).bs.Stat emptyStore ToyCtx.cancelledInPut
          (toyPkg.FromBytes (AppendReferences honouringBuilder threeRefs).configJSON)).1.2
        = some Err.ErrBlobUnknown ∧
        ((AppendReferences honouringBuilder threeRefs).bs.Put
          ((AppendReferences honouringBuilder threeRefs).bs.Stat emptyStore
            ToyCtx.cancelledInPut
            (toyPkg.FromBytes (AppendReferences honouringBuilder threeRefs).configJSON)).2
          ToyCtx.cancelledInPut toyPkg.MediaTypeConfig
          (AppendReferences honouringBuilder threeRefs).configJSON).1.2 = some Canceled)) ∧
    (Build toyPkg (AppendReferences honouringBuilder threeRefs) ToyCtx.cancelledInPut
      emptyStore).manifest = none ∧
    (Build toyPkg (AppendReferences honouringBuilder threeRefs) ToyCtx.cancelledInPut
      emptyStore).err = some Canceled ∧
    (Build toyPkg (AppendReferences honouringBuilder threeRefs) ToyCtx.cancelledInPut
      emptyStore).mb.layers = (AppendReferences honouringBuilder threeRefs).layers ∧
    (References (Build toyPkg (AppendReferences honouringBuilder threeRefs)
      ToyCtx.cancelledInPut emptyStore).mb).1
      = (References (AppendReferences honouringBuilder threeRefs)).1 :=
  ⟨Or.inr ⟨by decide, by decide⟩,
    build_returns_store_cancellation toyPkg (AppendReferences honouringBuilder threeRefs)
      ToyCtx.cancelledInPut emptyStore Canceled (Or.inr ⟨by decide, by decide⟩)⟩

end Claims

end Schema2
